import Mathlib

/-!
# Ubuntu (systemd) provisioner and the fmt machine logger

A shallow embedding of `libmachine/provision/ubuntu_systemd.go` and
`libmachine/log/fmt_machine_logger.go`.

Go values are Lean values, a Go `error` is the text of its `Error()` method and
`nil` is `none`.  Code that the two files call but do not define (the remote
command channel, the driver, the helpers of package `provision`, the functions
of `strconv` and `fmt`) is a parameter: an arbitrary function of the
provisioner it is handed and of the state of the outside world, which returns
its results and the new state of the outside world.  The fields of the
provisioner change by the assignments of `Provision` only.  Every call the code
makes is appended to a call log, with its arguments and its results, so that
the order of the calls can be stated.
-/

/-- The Go `error` interface: a non-nil error is represented by the text its
`Error()` method returns; the nil error is `none : Option error`. -/
structure error where
  Error : String
deriving DecidableEq, Repr

/-! ## float64, as far as `>=` needs it -/

/-- An IEEE-754 binary64 value.  `finite sig exp` is the double whose value is
`sig * 2^exp` (a double has such a form with `|sig| < 2^53` and
`-1074 ≤ exp ≤ 971`; the two zeros are `finite 0 _`, they compare equal). -/
inductive float64 where
  | NaN
  | Inf (negative : Bool)
  | finite (sig : Int) (exp : Int)
deriving Repr

namespace float64

/-- Go `a >= b` on float64: false as soon as one side is NaN; two finite values
are compared after scaling both to the smaller of the two exponents. -/
def ge : float64 → float64 → Bool
  | NaN, _ => false
  | _, NaN => false
  | Inf false, _ => true
  | _, Inf true => true
  | Inf true, _ => false
  | _, Inf false => false
  | finite a ea, finite b eb =>
    let e := min ea eb
    decide (b * 2 ^ (eb - e).toNat ≤ a * 2 ^ (ea - e).toNat)

/-- Number of binary digits of `n`, computed with `fuel` halvings at most. -/
def bitLength : Nat → Nat → Nat
  | 0, _ => 0
  | fuel + 1, n => if n = 0 then 0 else bitLength fuel (n / 2) + 1

/-- Rounding of `num / den` to an integer, ties to the even neighbour. -/
def roundHalfEven (num den : Nat) : Nat :=
  let q := num / den
  let r := num % den
  if 2 * r < den then q
  else if den < 2 * r then q + 1
  else if q % 2 = 0 then q else q + 1

/-- The quotient `num / den` scaled by `2^(-e)`, as a fraction of naturals. -/
def scaled (num den : Nat) (e : Int) : Nat × Nat :=
  (num * 2 ^ (-e).toNat, den * 2 ^ e.toNat)

/-- The double nearest to the non-negative rational `num / den` (ties to even):
the value a Go untyped constant takes when it is converted to float64, and the
value `strconv.ParseFloat` returns for a decimal in range.  `e0` is an exponent
for which `num / den / 2^e0` lies between `2^52` and `2^54`, `e` the exponent
of the unit in the last place (not below that of the subnormals), `m` the
significand (when the rounding carries, `m` is `2^53` and stands for
`2^52 * 2^(e+1)`); beyond the largest double the result is `+Inf`. -/
def nearest (num den : Nat) : float64 :=
  if num = 0 ∨ den = 0 then finite 0 (-1074)
  else
    let e0 : Int := (bitLength num num : Int) - (bitLength den den : Int) - 53
    let t := (scaled num den e0).1 / (scaled num den e0).2
    let e1 : Int := if 2 ^ 53 ≤ t then e0 + 1 else e0
    let e : Int := max e1 (-1074)
    let m := roundHalfEven (scaled num den e).1 (scaled num den e).2
    if 971 < e ∨ (e = 971 ∧ 2 ^ 53 ≤ m) then Inf false else finite m e

end float64

/-! ## Types of the packages the provisioner imports -/

namespace pkgaction

/-- Modelled from the spec: the type `pkgaction.PackageAction` is declared
outside the two source files; the spec gives it as the closed enumeration
Install, Upgrade, Remove, Purge. -/
inductive PackageAction where
  | Install
  | Upgrade
  | Remove
  | Purge
deriving DecidableEq, Repr

end pkgaction

namespace serviceaction

/-- Modelled from the spec: the type `serviceaction.ServiceAction` is declared
outside the two source files; the spec gives it as the closed enumeration
Start, Stop, Restart, Enable, Disable. -/
inductive ServiceAction where
  | Start
  | Stop
  | Restart
  | Enable
  | Disable
deriving DecidableEq, Repr

end serviceaction

namespace swarm

/-- The struct `swarm.Options`: the field `Env` that `Provision` assigns, and all
its other fields together as `rest`. -/
structure Options (σ : Type) where
  Env : List String
  rest : σ
deriving DecidableEq, Repr

end swarm

namespace engine

/-- The struct `engine.Options`: the fields `Provision` reads or assigns, and all
its other fields together as `rest`. -/
structure Options (ε : Type) where
  Env : List String
  StorageDriver : String
  InstallURL : String
  Version : String
  rest : ε
deriving DecidableEq, Repr

end engine

/-! ## The provisioner -/

namespace provision

open pkgaction serviceaction

/-- The struct `OsRelease` (the probed OS identity): the two fields the
compatibility check reads. -/
structure OsRelease where
  ID : String
  VersionID : String
deriving DecidableEq, Repr

/-- The fields of `UbuntuSystemdProvisioner` (inherited from the embedded
`SystemdProvisioner`) that the code reads or assigns.  `α` is the type
`auth.Options`. -/
structure UbuntuSystemdProvisioner (α σ ε : Type) where
  OsReleaseID : String
  OsReleaseInfo : OsRelease
  Packages : List String
  SwarmOptions : swarm.Options σ
  AuthOptions : α
  EngineOptions : engine.Options ε

/-- The constant `FirstUbuntuSystemdVersion = 15.04` of `CompatibleWithHost`,
converted to float64 for the comparison with `versionNumber`. -/
def FirstUbuntuSystemdVersion : float64 := float64.nearest 1504 100

/-- The method `UbuntuSystemdProvisioner.CompatibleWithHost`.  `ParseFloat` is
`strconv.ParseFloat`: it returns a float64 and an error. -/
def CompatibleWithHost {α σ ε : Type}
    (ParseFloat : String → Nat → float64 × Option error)
    (provisioner : UbuntuSystemdProvisioner α σ ε) : Bool :=
  let isUbuntu := provisioner.OsReleaseInfo.ID == provisioner.OsReleaseID
  if !isUbuntu then
    false
  else
    match ParseFloat provisioner.OsReleaseInfo.VersionID 64 with
    | (_, some _) => false
    | (versionNumber, none) => float64.ge versionNumber FirstUbuntuSystemdVersion

/-! ## The call log -/

/-- A call made by the code of `ubuntu_systemd.go`, with its arguments and with
the results other than the error.  Calls of the package `log` carry the format
and the operands already rendered as text. -/
inductive Op (α σ : Type) where
  | Debug (msg : String)
  | Debugf (format : String) (args : List String)
  | Warnf (format : String) (args : List String)
  | waitForCloudInit
  | decideStorageDriver (defaultDriver driver result : String)
  | GetMachineName (result : String)
  | SetHostname (hostname : String)
  | waitForLockAptGetUpdate
  | SSHCommand (command output : String)
  | Package (name : String) (action : PackageAction)
  | installDockerGeneric (url version : String)
  | dockerDaemonResponding (result : Bool)
  | WaitFor
  | setRemoteAuthOptions (result : α)
  | ConfigureAuth
  | configureSwarm (swarmOptions : swarm.Options σ) (authOptions : α)
  | Service (name : String) (action : ServiceAction)
deriving DecidableEq

/-- A completed call: what was called and the error it returned (`none` for nil
and for the calls that return no error).  A call is logged when it returns, so
the calls a method of this file makes precede the entry of the method. -/
structure Call (α σ : Type) where
  op : Op α σ
  err : Option error
deriving DecidableEq

/-- The calls `Provision` makes itself, logging apart: the bootstrap steps (the
query of the machine name belongs to the hostname step), as opposed to the
calls made inside `Package` and inside the probes of `WaitFor`. -/
def Op.isStep {α σ : Type} : Op α σ → Bool
  | .waitForCloudInit => true
  | .decideStorageDriver _ _ _ => true
  | .GetMachineName _ => true
  | .SetHostname _ => true
  | .Package _ _ => true
  | .installDockerGeneric _ _ => true
  | .WaitFor => true
  | .setRemoteAuthOptions _ => true
  | .ConfigureAuth => true
  | .configureSwarm _ _ => true
  | .Service _ _ => true
  | _ => false

/-- The calls of the method `Package`. -/
def Op.isPackage {α σ : Type} : Op α σ → Bool
  | .Package _ _ => true
  | _ => false

/-- The calls of `waitForLockAptGetUpdate`, the refresh of the package
metadata. -/
def Op.isMetadataRefresh {α σ : Type} : Op α σ → Bool
  | .waitForLockAptGetUpdate => true
  | _ => false

/-- The commands sent over the remote command channel. -/
def Op.isRemoteCommand {α σ : Type} : Op α σ → Bool
  | .SSHCommand _ _ => true
  | _ => false

/-- The bootstrap steps among the calls of a log, in order. -/
def steps {α σ : Type} (calls : List (Call α σ)) : List (Call α σ) :=
  calls.filter (fun c => c.op.isStep)

/-! ## The code outside the file -/

/-- What `ubuntu_systemd.go` calls and does not define.  Each function is handed
the provisioner and the state `ω` of the world outside the process (the remote
host, the driver) and returns its results with the new state of the world; it
reads the fields of the provisioner and does not assign them. -/
structure Externals (α σ ε ω : Type) where
  /-- the package variable `DefaultStorageDriver` -/
  DefaultStorageDriver : String
  /-- `pkgaction.PackageAction.String` -/
  actionString : PackageAction → String
  waitForCloudInit : UbuntuSystemdProvisioner α σ ε → ω → Option error × ω
  decideStorageDriver :
    UbuntuSystemdProvisioner α σ ε → String → String → ω → (String × Option error) × ω
  /-- `provisioner.Driver.GetMachineName` -/
  GetMachineName : UbuntuSystemdProvisioner α σ ε → ω → String × ω
  SetHostname : UbuntuSystemdProvisioner α σ ε → String → ω → Option error × ω
  waitForLockAptGetUpdate : UbuntuSystemdProvisioner α σ ε → ω → Option error × ω
  SSHCommand : UbuntuSystemdProvisioner α σ ε → String → ω → (String × Option error) × ω
  installDockerGeneric :
    UbuntuSystemdProvisioner α σ ε → String → String → ω → Option error × ω
  /-- the number of attempts of `mcnutils.WaitFor` -/
  maxAttempts : Nat
  /-- the error `mcnutils.WaitFor` returns after that many failed attempts -/
  timeoutError : Nat → error
  setRemoteAuthOptions : UbuntuSystemdProvisioner α σ ε → ω → α × ω
  ConfigureAuth : UbuntuSystemdProvisioner α σ ε → ω → Option error × ω
  configureSwarm :
    UbuntuSystemdProvisioner α σ ε → swarm.Options σ → α → ω → Option error × ω
  Service : UbuntuSystemdProvisioner α σ ε → String → ServiceAction → ω → Option error × ω

/-- The state of a run: the provisioner (the receiver of the methods), the
world outside, and the log of the calls made so far. -/
structure Run (α σ ε ω : Type) where
  provisioner : UbuntuSystemdProvisioner α σ ε
  world : ω
  calls : List (Call α σ)

section calls

variable {α σ ε ω : Type}

/-- Appends a completed call to the log. -/
def Run.record (s : Run α σ ε ω) (op : Op α σ) (err : Option error) : Run α σ ε ω :=
  { s with calls := s.calls ++ [⟨op, err⟩] }

/-- The calls logged between the state `s` and the later state `t`. -/
def newCalls (s t : Run α σ ε ω) : List (Call α σ) :=
  t.calls.drop s.calls.length

/-- A call `log.Debug(msg)`. -/
def log.Debug (msg : String) (s : Run α σ ε ω) : Run α σ ε ω :=
  s.record (.Debug msg) none

/-- A call `log.Debugf(format, args...)`. -/
def log.Debugf (format : String) (args : List String) (s : Run α σ ε ω) : Run α σ ε ω :=
  s.record (.Debugf format args) none

/-- A call `log.Warnf(format, args...)`. -/
def log.Warnf (format : String) (args : List String) (s : Run α σ ε ω) : Run α σ ε ω :=
  s.record (.Warnf format args) none

/-- A call `waitForCloudInit(provisioner)`. -/
def waitForCloudInit (x : Externals α σ ε ω) (s : Run α σ ε ω) :
    Option error × Run α σ ε ω :=
  let r := x.waitForCloudInit s.provisioner s.world
  (r.1, { s with world := r.2 }.record .waitForCloudInit r.1)

/-- A call `decideStorageDriver(provisioner, defaultDriver, suppliedDriver)`. -/
def decideStorageDriver (x : Externals α σ ε ω) (defaultDriver suppliedDriver : String)
    (s : Run α σ ε ω) : String × Option error × Run α σ ε ω :=
  let r := x.decideStorageDriver s.provisioner defaultDriver suppliedDriver s.world
  (r.1.1, r.1.2,
    { s with world := r.2 }.record (.decideStorageDriver defaultDriver suppliedDriver r.1.1) r.1.2)

/-- A call `provisioner.Driver.GetMachineName()`. -/
def GetMachineName (x : Externals α σ ε ω) (s : Run α σ ε ω) : String × Run α σ ε ω :=
  let r := x.GetMachineName s.provisioner s.world
  (r.1, { s with world := r.2 }.record (.GetMachineName r.1) none)

/-- A call `provisioner.SetHostname(hostname)`. -/
def SetHostname (x : Externals α σ ε ω) (hostname : String) (s : Run α σ ε ω) :
    Option error × Run α σ ε ω :=
  let r := x.SetHostname s.provisioner hostname s.world
  (r.1, { s with world := r.2 }.record (.SetHostname hostname) r.1)

/-- A call `waitForLockAptGetUpdate(provisioner)`. -/
def waitForLockAptGetUpdate (x : Externals α σ ε ω) (s : Run α σ ε ω) :
    Option error × Run α σ ε ω :=
  let r := x.waitForLockAptGetUpdate s.provisioner s.world
  (r.1, { s with world := r.2 }.record .waitForLockAptGetUpdate r.1)

/-- A call `provisioner.SSHCommand(command)`. -/
def SSHCommand (x : Externals α σ ε ω) (command : String) (s : Run α σ ε ω) :
    String × Option error × Run α σ ε ω :=
  let r := x.SSHCommand s.provisioner command s.world
  (r.1.1, r.1.2, { s with world := r.2 }.record (.SSHCommand command r.1.1) r.1.2)

/-- A call `installDockerGeneric(provisioner, url, version)`. -/
def installDockerGeneric (x : Externals α σ ε ω) (url version : String) (s : Run α σ ε ω) :
    Option error × Run α σ ε ω :=
  let r := x.installDockerGeneric s.provisioner url version s.world
  (r.1, { s with world := r.2 }.record (.installDockerGeneric url version) r.1)

/-- A call `setRemoteAuthOptions(provisioner)`. -/
def setRemoteAuthOptions (x : Externals α σ ε ω) (s : Run α σ ε ω) : α × Run α σ ε ω :=
  let r := x.setRemoteAuthOptions s.provisioner s.world
  (r.1, { s with world := r.2 }.record (.setRemoteAuthOptions r.1) none)

/-- A call `ConfigureAuth(provisioner)`. -/
def ConfigureAuth (x : Externals α σ ε ω) (s : Run α σ ε ω) : Option error × Run α σ ε ω :=
  let r := x.ConfigureAuth s.provisioner s.world
  (r.1, { s with world := r.2 }.record .ConfigureAuth r.1)

/-- A call `configureSwarm(provisioner, swarmOptions, authOptions)`. -/
def configureSwarm (x : Externals α σ ε ω) (swarmOptions : swarm.Options σ) (authOptions : α)
    (s : Run α σ ε ω) : Option error × Run α σ ε ω :=
  let r := x.configureSwarm s.provisioner swarmOptions authOptions s.world
  (r.1, { s with world := r.2 }.record (.configureSwarm swarmOptions authOptions) r.1)

/-- A call `provisioner.Service(name, action)`. -/
def Service (x : Externals α σ ε ω) (name : String) (action : ServiceAction)
    (s : Run α σ ε ω) : Option error × Run α σ ε ω :=
  let r := x.Service s.provisioner name action s.world
  (r.1, { s with world := r.2 }.record (.Service name action) r.1)

end calls

/-! ## The methods of `ubuntu_systemd.go` -/

section methods

variable {α σ ε ω : Type}

/-- An assignment to fields of the provisioner. -/
def Run.assign (s : Run α σ ε ω)
    (f : UbuntuSystemdProvisioner α σ ε → UbuntuSystemdProvisioner α σ ε) : Run α σ ε ω :=
  { s with provisioner := f s.provisioner }

/-- The body of the method `UbuntuSystemdProvisioner.Package`. -/
def Package.body (x : Externals α σ ε ω) (name : String) (action : PackageAction)
    (s : Run α σ ε ω) : Option error × Run α σ ε ω :=
  let packageAction :=
    match action with
    | .Install | .Upgrade => "install"
    | .Remove => "remove"
    | .Purge => "purge"
  let updateMetadata :=
    match action with
    | .Install | .Upgrade => true
    | .Remove => false
    | .Purge => false
  let name := if name = "docker" then "docker-ce" else name
  match (if updateMetadata then waitForLockAptGetUpdate x s else (none, s)) with
  | (some err, s) => (some err, s)
  | (none, s) =>
    let lockTimeout : Nat := 300
    let command :=
      "DEBIAN_FRONTEND=noninteractive sudo -E apt-get -o DPkg::Lock::Timeout="
        ++ toString lockTimeout ++ " " ++ packageAction ++ " -y  " ++ name
    let s := log.Debugf "package: action=%s name=%s" [x.actionString action, name] s
    match SSHCommand x command s with
    | (_, some err, s) => (some ⟨"command failed: " ++ err.Error⟩, s)
    | (_, none, s) => (none, s)

/-- A call `provisioner.Package(name, action)`: the body, then the entry of the
call in the log. -/
def Package (x : Externals α σ ε ω) (name : String) (action : PackageAction)
    (s : Run α σ ε ω) : Option error × Run α σ ε ω :=
  let r := Package.body x name action s
  (r.1, r.2.record (.Package name action) r.1)

/-- The body of the method `UbuntuSystemdProvisioner.dockerDaemonResponding`. -/
def dockerDaemonResponding.body (x : Externals α σ ε ω) (s : Run α σ ε ω) :
    Bool × Run α σ ε ω :=
  let s := log.Debug "checking docker daemon" s
  match SSHCommand x "sudo docker version" s with
  | (out, some err, s) =>
    let s := log.Warnf "Error getting SSH command to check if the daemon is up: %s" [err.Error] s
    let s := log.Debugf "\x27sudo docker version\x27 output:\n%s" [out] s
    (false, s)
  | (_, none, s) => (true, s)

/-- A call `provisioner.dockerDaemonResponding()`: the body, then the entry of
the call in the log. -/
def dockerDaemonResponding (x : Externals α σ ε ω) (s : Run α σ ε ω) : Bool × Run α σ ε ω :=
  let r := dockerDaemonResponding.body x s
  (r.1, r.2.record (.dockerDaemonResponding r.1) none)

/-- Modelled from the spec: `mcnutils.WaitFor` is defined outside the two source
files.  The spec gives it as a bounded poll: it calls the probe repeatedly
until the probe returns true (success, it returns immediately) or the bound is
exhausted (failure, a timeout error identifying the number of attempts made).
`WaitFor.loop` is that poll with `n` attempts left; the sleep between two
attempts is not modelled. -/
def WaitFor.loop (x : Externals α σ ε ω) (probe : Run α σ ε ω → Bool × Run α σ ε ω) :
    Nat → Run α σ ε ω → Option error × Run α σ ε ω
  | 0, s => (some (x.timeoutError x.maxAttempts), s)
  | n + 1, s =>
    match probe s with
    | (true, s) => (none, s)
    | (false, s) => WaitFor.loop x probe n s

/-- Modelled from the spec: a call `mcnutils.WaitFor(probe)`, the bounded poll
`WaitFor.loop` with all its attempts left, then the entry of the call in the
log. -/
def WaitFor (x : Externals α σ ε ω) (probe : Run α σ ε ω → Bool × Run α σ ε ω)
    (s : Run α σ ε ω) : Option error × Run α σ ε ω :=
  let r := WaitFor.loop x probe x.maxAttempts s
  (r.1, r.2.record .WaitFor r.1)

/-- The loop `for _, pkg := range provisioner.Packages` of `Provision`, over the
names that are left. -/
def Provision.installBasePackages (x : Externals α σ ε ω) :
    List String → Run α σ ε ω → Option error × Run α σ ε ω
  | [], s => (none, s)
  | pkg :: rest, s =>
    match Package x pkg .Install s with
    | (some err, s) => (some err, s)
    | (none, s) => Provision.installBasePackages x rest s

/-- The method `UbuntuSystemdProvisioner.Provision`. -/
def Provision (x : Externals α σ ε ω) (swarmOptions : swarm.Options σ) (authOptions : α)
    (engineOptions : engine.Options ε) (s : Run α σ ε ω) : Option error × Run α σ ε ω :=
  let s := s.assign (fun p => { p with SwarmOptions := swarmOptions })
  let s := s.assign (fun p => { p with AuthOptions := authOptions })
  let s := s.assign (fun p => { p with EngineOptions := engineOptions })
  let swarmOptions := { swarmOptions with Env := engineOptions.Env }
  let s := log.Debug "waiting for cloud-init to complete" s
  match waitForCloudInit x s with
  | (some err, s) => (some err, s)
  | (none, s) =>
  match decideStorageDriver x x.DefaultStorageDriver engineOptions.StorageDriver s with
  | (_, some err, s) => (some err, s)
  | (storageDriver, none, s) =>
  let s := s.assign (fun p =>
    { p with EngineOptions := { p.EngineOptions with StorageDriver := storageDriver } })
  let s := log.Debug "setting hostname" s
  match GetMachineName x s with
  | (machineName, s) =>
  match SetHostname x machineName s with
  | (some err, s) => (some err, s)
  | (none, s) =>
  let s := log.Debug "installing base packages" s
  match Provision.installBasePackages x s.provisioner.Packages s with
  | (some err, s) => (some err, s)
  | (none, s) =>
  match installDockerGeneric x s.provisioner.EngineOptions.InstallURL
      s.provisioner.EngineOptions.Version s with
  | (some err, s) => (some err, s)
  | (none, s) =>
  let s := log.Debug "waiting for docker daemon" s
  match WaitFor x (dockerDaemonResponding x) s with
  | (some err, s) => (some err, s)
  | (none, s) =>
  match setRemoteAuthOptions x s with
  | (remoteAuthOptions, s) =>
  let s := s.assign (fun p => { p with AuthOptions := remoteAuthOptions })
  let s := log.Debug "configuring auth" s
  match ConfigureAuth x s with
  | (some err, s) => (some err, s)
  | (none, s) =>
  let s := log.Debug "configuring swarm" s
  match configureSwarm x swarmOptions s.provisioner.AuthOptions s with
  | (some err, s) => (some err, s)
  | (none, s) =>
  let s := log.Debug "enabling docker in systemd" s
  Service x "docker" .Enable s

end methods

/-! ## Specification of the package command and of the order of the steps -/

section stated

variable {α σ ε ω : Type}

/-- The verb of apt-get for a package action. -/
def aptVerb : PackageAction → String
  | .Install => "install"
  | .Upgrade => "install"
  | .Remove => "remove"
  | .Purge => "purge"

/-- The package name after aliasing. -/
def aptName (name : String) : String :=
  if name = "docker" then "docker-ce" else name

/-- The apt-get command line for a verb and a package name. -/
def aptCommand (verb pkg : String) : String :=
  "DEBIAN_FRONTEND=noninteractive sudo -E apt-get -o DPkg::Lock::Timeout=300 "
    ++ verb ++ " -y  " ++ pkg

/-- The error `Package` returns for the error of the remote command. -/
def commandFailed (err : Option error) : Option error :=
  err.map (fun e => ⟨"command failed: " ++ e.Error⟩)

/-- The steps of a run of `Provision` in which nothing fails: `sd` is the
storage driver that was resolved, `name` the machine name the driver gave,
`remoteAuthOptions` the auth options after `setRemoteAuthOptions`. -/
def script (x : Externals α σ ε ω) (swarmOptions : swarm.Options σ)
    (engineOptions : engine.Options ε) (pkgs : List String) (sd name : String)
    (remoteAuthOptions : α) : List (Op α σ) :=
  [.waitForCloudInit,
   .decideStorageDriver x.DefaultStorageDriver engineOptions.StorageDriver sd,
   .GetMachineName name,
   .SetHostname name]
  ++ pkgs.map (fun n => Op.Package n .Install)
  ++ [.installDockerGeneric engineOptions.InstallURL engineOptions.Version,
      .WaitFor,
      .setRemoteAuthOptions remoteAuthOptions,
      .ConfigureAuth,
      .configureSwarm { swarmOptions with Env := engineOptions.Env } remoteAuthOptions,
      .Service "docker" .Enable]

/-- The steps before the base packages. -/
def scriptHead (x : Externals α σ ε ω) (engineOptions : engine.Options ε) (sd name : String) :
    List (Op α σ) :=
  [.waitForCloudInit,
   .decideStorageDriver x.DefaultStorageDriver engineOptions.StorageDriver sd,
   .GetMachineName name,
   .SetHostname name]

/-- The steps after the base packages. -/
def scriptTail (swarmOptions : swarm.Options σ) (engineOptions : engine.Options ε)
    (remoteAuthOptions : α) : List (Op α σ) :=
  [.installDockerGeneric engineOptions.InstallURL engineOptions.Version,
   .WaitFor,
   .setRemoteAuthOptions remoteAuthOptions,
   .ConfigureAuth,
   .configureSwarm { swarmOptions with Env := engineOptions.Env } remoteAuthOptions,
   .Service "docker" .Enable]

/-- The calls logged by `Package(name, Install)` when the metadata refresh and
the remote command succeed, `out` being the output of the command: the
refresh, the log message, the remote command, and the entry of `Package`. -/
def packageLog (x : Externals α σ ε ω) (name out : String) : List (Call α σ) :=
  [⟨.waitForLockAptGetUpdate, none⟩,
   ⟨.Debugf "package: action=%s name=%s" [x.actionString .Install, aptName name], none⟩,
   ⟨.SSHCommand (aptCommand "install" (aptName name)) out, none⟩,
   ⟨.Package name .Install, none⟩]

/-- The calls logged by a probe of the docker daemon that finds it not
responding: the log message, the remote command "sudo docker version" that
returns the output `out` and the error `e`, the warning with the text of the
error, the log message with the output, and the entry of the probe with the
result false. -/
def failedProbeLog (out : String) (e : error) : List (Call α σ) :=
  [⟨.Debug "checking docker daemon", none⟩,
   ⟨.SSHCommand "sudo docker version" out, some e⟩,
   ⟨.Warnf "Error getting SSH command to check if the daemon is up: %s" [e.Error], none⟩,
   ⟨.Debugf "\x27sudo docker version\x27 output:\n%s" [out], none⟩,
   ⟨.dockerDaemonResponding false, none⟩]

/-- The calls logged by a probe of the docker daemon that finds it responding:
the log message, the remote command "sudo docker version" that returns no
error, and the entry of the probe with the result true. -/
def respondingProbeLog (out : String) : List (Call α σ) :=
  [⟨.Debug "checking docker daemon", none⟩,
   ⟨.SSHCommand "sudo docker version" out, none⟩,
   ⟨.dockerDaemonResponding true, none⟩]

/-- The steps of a script are taken in order, each returning nil, up to and
including the first one that returns an error, and that error is the result;
when none fails, all are taken and the result is nil. -/
inductive Aborting : List (Op α σ) → List (Call α σ) → Option error → Prop
  | done : Aborting [] [] none
  | fail (op : Op α σ) (e : error) (rest : List (Op α σ)) :
      Aborting (op :: rest) [⟨op, some e⟩] (some e)
  | step (op : Op α σ) {ops : List (Op α σ)} {st : List (Call α σ)} {r : Option error} :
      Aborting ops st r → Aborting (op :: ops) (⟨op, none⟩ :: st) r

end stated

end provision

/-! ## The fmt machine logger -/

namespace log

/-- The functions of package `fmt` that `fmt_machine_logger.go` calls on a list
of operands of type `A`. -/
structure Fmt (A : Type) where
  Sprintln : List A → String
  Sprintf : String → List A → String

/-- A call received by the `HistoryRecorder` of a logger.  The recorder is
defined outside the file; its state is represented by the calls it has
received, in order. -/
inductive HistoryCall (A : Type) where
  | Record (args : List A)
  | Recordf (fmtString : String) (args : List A)
deriving DecidableEq, Repr

/-- The struct `FmtMachineLogger`.  A writer (`outWriter`, `errWriter`, `logFile`)
is represented by the strings written through that field, in order. -/
structure FmtMachineLogger (A : Type) where
  outWriter : List String
  errWriter : List String
  debug : Bool
  history : List (HistoryCall A)
  logFile : List String
deriving DecidableEq, Repr

namespace FmtMachineLogger

variable {A : Type}

/-- The method `SetDebug`. -/
def SetDebug (ml : FmtMachineLogger A) (debug : Bool) : FmtMachineLogger A :=
  { ml with debug := debug }

/-- The method `SetOutWriter`; `out` is what the new writer has received so far. -/
def SetOutWriter (ml : FmtMachineLogger A) (out : List String) : FmtMachineLogger A :=
  { ml with outWriter := out }

/-- The method `SetErrWriter`; `err` is what the new writer has received so far. -/
def SetErrWriter (ml : FmtMachineLogger A) (err : List String) : FmtMachineLogger A :=
  { ml with errWriter := err }

/-- The call `ml.history.Record(args...)`. -/
def history_Record (ml : FmtMachineLogger A) (args : List A) : FmtMachineLogger A :=
  { ml with history := ml.history ++ [.Record args] }

/-- The call `ml.history.Recordf(fmtString, args...)`. -/
def history_Recordf (ml : FmtMachineLogger A) (fmtString : String) (args : List A) :
    FmtMachineLogger A :=
  { ml with history := ml.history ++ [.Recordf fmtString args] }

/-- The method `writeErr`: the string goes to the log file, then to the error
writer. -/
def writeErr (ml : FmtMachineLogger A) (str : String) : FmtMachineLogger A :=
  let ml := { ml with logFile := ml.logFile ++ [str] }
  { ml with errWriter := ml.errWriter ++ [str] }

/-- The method `writeOut`: the string goes to the log file, then to the out
writer. -/
def writeOut (ml : FmtMachineLogger A) (str : String) : FmtMachineLogger A :=
  let ml := { ml with logFile := ml.logFile ++ [str] }
  { ml with outWriter := ml.outWriter ++ [str] }

/-- The method `Debug`. -/
def Debug (f : Fmt A) (ml : FmtMachineLogger A) (args : List A) : FmtMachineLogger A :=
  let ml := ml.history_Record args
  if ml.debug then
    let str := f.Sprintln args
    ml.writeErr str
  else ml

/-- The method `Debugf`. -/
def Debugf (f : Fmt A) (ml : FmtMachineLogger A) (fmtString : String) (args : List A) :
    FmtMachineLogger A :=
  let ml := ml.history_Recordf fmtString args
  if ml.debug then
    let str := f.Sprintf (fmtString ++ "\n") args
    ml.writeErr str
  else ml

/-- The method `Error`. -/
def Error (f : Fmt A) (ml : FmtMachineLogger A) (args : List A) : FmtMachineLogger A :=
  let ml := ml.history_Record args
  let str := f.Sprintln args
  ml.writeErr str

/-- The method `Errorf`. -/
def Errorf (f : Fmt A) (ml : FmtMachineLogger A) (fmtString : String) (args : List A) :
    FmtMachineLogger A :=
  let ml := ml.history_Recordf fmtString args
  let str := f.Sprintf (fmtString ++ "\n") args
  ml.writeErr str

/-- The method `Info`. -/
def Info (f : Fmt A) (ml : FmtMachineLogger A) (args : List A) : FmtMachineLogger A :=
  let ml := ml.history_Record args
  let str := f.Sprintln args
  ml.writeOut str

/-- The method `Infof`. -/
def Infof (f : Fmt A) (ml : FmtMachineLogger A) (fmtString : String) (args : List A) :
    FmtMachineLogger A :=
  let ml := ml.history_Recordf fmtString args
  let str := f.Sprintf (fmtString ++ "\n") args
  ml.writeOut str

/-- The method `Warn`. -/
def Warn (f : Fmt A) (ml : FmtMachineLogger A) (args : List A) : FmtMachineLogger A :=
  let ml := ml.history_Record args
  let str := f.Sprintln args
  ml.writeOut str

/-- The method `Warnf`. -/
def Warnf (f : Fmt A) (ml : FmtMachineLogger A) (fmtString : String) (args : List A) :
    FmtMachineLogger A :=
  let ml := ml.history_Recordf fmtString args
  let str := f.Sprintf (fmtString ++ "\n") args
  ml.writeOut str

end FmtMachineLogger

end log

/-! ## Hosts for the examples -/

namespace demo

open provision pkgaction serviceaction

/-- A `strconv.ParseFloat` that knows the two version identifiers of the
examples (it returns the doubles nearest to 20.04 and 14.04) and rejects every
other string. -/
def ParseFloat (s : String) (_bitSize : Nat) : float64 × Option error :=
  if s = "20.04" then (float64.nearest 2004 100, none)
  else if s = "14.04" then (float64.nearest 1404 100, none)
  else (float64.finite 0 0, some ⟨"strconv.ParseFloat: parsing " ++ s ++ ": invalid syntax"⟩)

/-- A provisioner for "ubuntu" on a host that was probed as the given identity,
with the given base packages. -/
def provisioner (info : OsRelease) (packages : List String) :
    UbuntuSystemdProvisioner String Unit Unit :=
  { OsReleaseID := "ubuntu"
    OsReleaseInfo := info
    Packages := packages
    SwarmOptions := ⟨[], ()⟩
    AuthOptions := ""
    EngineOptions := ⟨[], "", "", "", ()⟩ }

/-- A remote host and driver.  The world is the number of remote round trips
made so far.  The remote command channel fails on the commands for which
`sshError` gives an error, with the output "E: Unable to locate package";
the storage driver is resolved with the error `storageError`, if any;
everything else succeeds. -/
def host (sshError : String → Option error) (storageError : Option error) :
    Externals String Unit Unit Nat :=
  { DefaultStorageDriver := "overlay2"
    actionString := fun a =>
      match a with
      | .Install => "install"
      | .Upgrade => "upgrade"
      | .Remove => "remove"
      | .Purge => "purge"
    waitForCloudInit := fun _ w => (none, w + 1)
    decideStorageDriver := fun _ d drv w => ((if drv = "" then d else drv, storageError), w + 1)
    GetMachineName := fun _ w => ("node1", w)
    SetHostname := fun _ _ w => (none, w + 1)
    waitForLockAptGetUpdate := fun _ w => (none, w + 1)
    SSHCommand := fun _ command w =>
      match sshError command with
      | some e => (("E: Unable to locate package", some e), w + 1)
      | none => (("", none), w + 1)
    installDockerGeneric := fun _ _ _ w => (none, w + 1)
    maxAttempts := 60
    timeoutError := fun n => ⟨"Maximum number of retries (" ++ toString n ++ ") exceeded"⟩
    setRemoteAuthOptions := fun p w => (p.AuthOptions ++ "@node1", w)
    ConfigureAuth := fun _ w => (none, w + 1)
    configureSwarm := fun _ _ _ w => (none, w + 1)
    Service := fun _ _ _ w => (none, w + 1) }

/-- A host on which everything succeeds. -/
def goodHost : Externals String Unit Unit Nat :=
  host (fun _ => none) none

/-- A host on which the remote command channel fails with "exit status 100" on
every command that mentions the package "htop". -/
def noHtopHost : Externals String Unit Unit Nat :=
  host (fun command =>
    if command = aptCommand "install" "htop" ∨ command = aptCommand "remove" "htop"
    then some ⟨"exit status 100"⟩ else none) none

/-- A host on which the storage driver asked for is rejected. -/
def noDriverHost : Externals String Unit Unit Nat :=
  host (fun _ => none) (some ⟨"unsupported storage driver"⟩)

/-- A host on which everything succeeds, but whose docker daemon does not answer
"sudo docker version" before the ninth remote round trip. -/
def slowDaemonHost : Externals String Unit Unit Nat :=
  { goodHost with
    SSHCommand := fun _ command w =>
      if command = "sudo docker version" ∧ w < 8
      then (("Cannot connect to the Docker daemon", some ⟨"exit status 1"⟩), w + 1)
      else (("", none), w + 1) }

/-- The state before a run, with the given base packages. -/
def start (packages : List String) : Run String Unit Unit Nat :=
  ⟨provisioner ⟨"ubuntu", "20.04"⟩ packages, 0, []⟩

/-- The swarm options of the caller in the examples. -/
def swarmOptions : swarm.Options Unit := ⟨["SWARM_ENV=1"], ()⟩

/-- The engine options of the caller in the examples. -/
def engineOptions : engine.Options Unit :=
  ⟨["HTTP_PROXY=http://proxy:3128"], "", "https://get.docker.com", "24.0", ()⟩

/-- The run of `Provision` on the host on which everything succeeds, with the
base package "curl". -/
def goodRun : Option error × Run String Unit Unit Nat :=
  Provision goodHost swarmOptions "auth" engineOptions (start ["curl"])

/-- The run of `Provision` on the host with the slow docker daemon, with the base
package "curl". -/
def slowDaemonRun : Option error × Run String Unit Unit Nat :=
  Provision slowDaemonHost swarmOptions "auth" engineOptions (start ["curl"])

/-- The run of `Provision` on the host without "htop", with the base packages
"curl", "htop" and "jq". -/
def noHtopRun : Option error × Run String Unit Unit Nat :=
  Provision noHtopHost swarmOptions "auth" engineOptions (start ["curl", "htop", "jq"])

/-- The run of `Provision` on the host that rejects the storage driver. -/
def noDriverRun : Option error × Run String Unit Unit Nat :=
  Provision noDriverHost swarmOptions "auth" engineOptions (start ["curl"])

end demo

/-! ## The compatibility check -/

namespace provision

open pkgaction serviceaction

/-- The double nearest to 15.04 is `8466767299456532 * 2^(-49)`, the double with
the bits `0x402E147AE147AE14`. -/
theorem FirstUbuntuSystemdVersion_eq :
    FirstUbuntuSystemdVersion = float64.finite 8466767299456532 (-49) := by
  rfl

/-- C1. `CompatibleWithHost` returns true exactly when the probed distribution ID
equals the expected ID of the provisioner and `ParseFloat` returns the version
ID as a number, without error, that is `>= 15.04`; it returns false when the
ID differs and when the version ID does not parse, and it is a total function
to `Bool` (it raises no error).  With the expected ID "ubuntu", the identity
ID "ubuntu", VersionID "20.04" gives true and ID "ubuntu", VersionID "14.04"
gives false, `ParseFloat` returning the doubles nearest to 20.04 and 14.04. -/
theorem CompatibleWithHost_iff {α σ ε : Type}
    (ParseFloat : String → Nat → float64 × Option error)
    (p : UbuntuSystemdProvisioner α σ ε) :
    (CompatibleWithHost ParseFloat p = true ↔
      p.OsReleaseInfo.ID = p.OsReleaseID ∧
      (ParseFloat p.OsReleaseInfo.VersionID 64).2 = none ∧
      float64.ge (ParseFloat p.OsReleaseInfo.VersionID 64).1 FirstUbuntuSystemdVersion = true) ∧
    (p.OsReleaseInfo.ID ≠ p.OsReleaseID → CompatibleWithHost ParseFloat p = false) ∧
    ((ParseFloat p.OsReleaseInfo.VersionID 64).2 ≠ none →
      CompatibleWithHost ParseFloat p = false) ∧
    (p.OsReleaseID = "ubuntu" → p.OsReleaseInfo = ⟨"ubuntu", "20.04"⟩ →
      ParseFloat "20.04" 64 = (float64.nearest 2004 100, none) →
      CompatibleWithHost ParseFloat p = true) ∧
    (p.OsReleaseID = "ubuntu" → p.OsReleaseInfo = ⟨"ubuntu", "14.04"⟩ →
      ParseFloat "14.04" 64 = (float64.nearest 1404 100, none) →
      CompatibleWithHost ParseFloat p = false) := by
  have key : CompatibleWithHost ParseFloat p = true ↔
      p.OsReleaseInfo.ID = p.OsReleaseID ∧
      (ParseFloat p.OsReleaseInfo.VersionID 64).2 = none ∧
      float64.ge (ParseFloat p.OsReleaseInfo.VersionID 64).1 FirstUbuntuSystemdVersion
        = true := by
    unfold CompatibleWithHost
    by_cases hid : p.OsReleaseInfo.ID = p.OsReleaseID
    · rcases hpf : ParseFloat p.OsReleaseInfo.VersionID 64 with ⟨v, _ | e⟩ <;> simp [hid, hpf]
    · simp [hid]
  refine ⟨key, ?_, ?_, ?_, ?_⟩
  · intro hid
    cases h : CompatibleWithHost ParseFloat p
    · rfl
    · exact absurd (key.mp h).1 hid
  · intro herr
    cases h : CompatibleWithHost ParseFloat p
    · rfl
    · exact absurd (key.mp h).2.1 herr
  · intro hexp hinfo hpf
    rw [key, hinfo, hexp]
    refine ⟨rfl, ?_, ?_⟩
    · show (ParseFloat "20.04" 64).2 = none
      rw [hpf]
    · show float64.ge (ParseFloat "20.04" 64).1 FirstUbuntuSystemdVersion = true
      rw [hpf]
      decide
  · intro hexp hinfo hpf
    cases h : CompatibleWithHost ParseFloat p
    · rfl
    · have h3 := (key.mp h).2.2
      rw [hinfo] at h3
      have h4 : float64.ge (ParseFloat "14.04" 64).1 FirstUbuntuSystemdVersion = true := h3
      rw [hpf] at h4
      exact absurd h4 (by decide)

theorem CompatibleWithHost_iff_witness :
    CompatibleWithHost demo.ParseFloat (demo.provisioner ⟨"ubuntu", "20.04"⟩ []) = true ∧
    CompatibleWithHost demo.ParseFloat (demo.provisioner ⟨"ubuntu", "14.04"⟩ []) = false ∧
    CompatibleWithHost demo.ParseFloat (demo.provisioner ⟨"debian", "20.04"⟩ []) = false ∧
    CompatibleWithHost demo.ParseFloat (demo.provisioner ⟨"ubuntu", "focal"⟩ []) = false :=
  ⟨(CompatibleWithHost_iff demo.ParseFloat (demo.provisioner ⟨"ubuntu", "20.04"⟩ [])).2.2.2.1
      rfl rfl rfl,
   (CompatibleWithHost_iff demo.ParseFloat (demo.provisioner ⟨"ubuntu", "14.04"⟩ [])).2.2.2.2
      rfl rfl rfl,
   (CompatibleWithHost_iff demo.ParseFloat (demo.provisioner ⟨"debian", "20.04"⟩ [])).2.1
      (by decide),
   (CompatibleWithHost_iff demo.ParseFloat (demo.provisioner ⟨"ubuntu", "focal"⟩ [])).2.2.1
      (by decide)⟩

/-! ## Call logs of the methods -/

section lemmas

variable {α σ ε ω : Type}

theorem newCalls_of_append {s t : Run α σ ε ω} {l : List (Call α σ)}
    (h : t.calls = s.calls ++ l) : newCalls s t = l := by
  simp [newCalls, h]

theorem calls_eq_of_append {s t : Run α σ ε ω} {l : List (Call α σ)}
    (h : t.calls = s.calls ++ l) : t.calls = s.calls ++ newCalls s t := by
  rw [newCalls_of_append h, h]

theorem newCalls_trans {s t u : Run α σ ε ω}
    (h1 : t.calls = s.calls ++ newCalls s t) (h2 : u.calls = t.calls ++ newCalls t u) :
    u.calls = s.calls ++ newCalls s u ∧ newCalls s u = newCalls s t ++ newCalls t u := by
  have h : u.calls = s.calls ++ (newCalls s t ++ newCalls t u) := by
    rw [← List.append_assoc, ← h1, ← h2]
  exact ⟨calls_eq_of_append h, newCalls_of_append h⟩

@[simp] theorem steps_nil : steps ([] : List (Call α σ)) = [] := rfl

theorem steps_cons (c : Call α σ) (l : List (Call α σ)) :
    steps (c :: l) = if c.op.isStep = true then c :: steps l else steps l := by
  simp only [steps, List.filter_cons]

theorem steps_append (l₁ l₂ : List (Call α σ)) : steps (l₁ ++ l₂) = steps l₁ ++ steps l₂ := by
  simp [steps]

theorem mem_steps {l : List (Call α σ)} {c : Call α σ} :
    c ∈ steps l ↔ c ∈ l ∧ c.op.isStep = true := by
  simp [steps, List.mem_filter]

theorem Aborting.append_fail {A : List (Op α σ)} {st : List (Call α σ)} {e : error}
    (B : List (Op α σ)) (h : Aborting A st (some e)) : Aborting (A ++ B) st (some e) := by
  generalize hr : some e = r at h
  induction h with
  | done => cases hr
  | fail op e1 rest => cases hr; exact .fail _ _ _
  | step op _ ih => exact .step op (ih hr)

theorem Aborting.append {A B : List (Op α σ)} {sA sB : List (Call α σ)} {r : Option error}
    (hA : Aborting A sA none) (hB : Aborting B sB r) : Aborting (A ++ B) (sA ++ sB) r := by
  generalize hr : (none : Option error) = r0 at hA
  induction hA with
  | done => simpa using hB
  | fail op e1 rest => cases hr
  | step op _ ih => exact .step op (ih hr)

theorem Aborting.split {A B : List (Op α σ)} {st : List (Call α σ)} {r : Option error}
    (h : Aborting (A ++ B) st r) :
    (∃ e, r = some e ∧ Aborting A st (some e)) ∨
    (∃ sA sB, st = sA ++ sB ∧ Aborting A sA none ∧ Aborting B sB r) := by
  induction A generalizing st with
  | nil => exact Or.inr ⟨[], st, rfl, .done, h⟩
  | cons a A ih =>
    cases h with
    | fail _ e _ => exact Or.inl ⟨e, rfl, .fail _ _ _⟩
    | step _ h1 =>
      rcases ih h1 with ⟨e, hr, hA⟩ | ⟨sA, sB, hst, hA, hB⟩
      · exact Or.inl ⟨e, hr, .step _ hA⟩
      · exact Or.inr ⟨_ :: sA, sB, by rw [hst]; rfl, .step _ hA, hB⟩

theorem Aborting.eq_of_none {A : List (Op α σ)} {st : List (Call α σ)} {r : Option error}
    (h : Aborting A st r) (hr : r = none) : st = A.map (fun op => ⟨op, none⟩) := by
  induction h with
  | done => rfl
  | fail op e1 rest => cases hr
  | step op _ ih => simp [ih hr]

theorem Aborting.none_of_all {A : List (Op α σ)} {st : List (Call α σ)} {r : Option error}
    (h : Aborting A st r) (hall : ∀ c ∈ st, c.err = none) : r = none := by
  induction h with
  | done => rfl
  | fail op e1 rest => simpa using hall ⟨op, some e1⟩
  | step op _ ih => exact ih (fun c hc => hall c (List.mem_cons_of_mem _ hc))

theorem Aborting.last_of_err {A : List (Op α σ)} {st : List (Call α σ)} {r : Option error}
    (h : Aborting A st r) {pre post : List (Call α σ)} {c : Call α σ} {e : error}
    (hst : st = pre ++ c :: post) (hc : c.err = some e) : post = [] ∧ r = some e := by
  induction h generalizing pre with
  | done => simp at hst
  | fail op e1 rest =>
    cases pre with
    | nil =>
      simp at hst
      obtain ⟨h1, h2⟩ := hst
      subst h1
      simp at hc
      exact ⟨h2, by rw [hc]⟩
    | cons a pre => simp at hst
  | step op _ ih =>
    cases pre with
    | nil =>
      simp at hst
      obtain ⟨h1, _⟩ := hst
      subst h1
      simp at hc
    | cons a pre =>
      simp at hst
      exact ih hst.2

theorem Aborting.ops_of_steps {A : List (Op α σ)} {st : List (Call α σ)} {r : Option error}
    (h : Aborting A st r) : ∃ post, A = st.map (fun c => c.op) ++ post := by
  induction h with
  | done => exact ⟨[], rfl⟩
  | fail op e1 rest => exact ⟨rest, rfl⟩
  | step op _ ih =>
    obtain ⟨post, hp⟩ := ih
    exact ⟨post, by simp [← hp]⟩

theorem Aborting.op_mem {A : List (Op α σ)} {st : List (Call α σ)} {r : Option error}
    (h : Aborting A st r) {c : Call α σ} (hc : c ∈ st) : c.op ∈ A := by
  obtain ⟨post, hp⟩ := h.ops_of_steps
  rw [hp]
  exact List.mem_append_left _ (List.mem_map_of_mem _ hc)

theorem Aborting.err_none {A : List (Op α σ)} {st : List (Call α σ)} {r : Option error}
    (h : Aborting A st r) (hr : r = none) {c : Call α σ} (hc : c ∈ st) : c.err = none := by
  rw [h.eq_of_none hr] at hc
  simp only [List.mem_map] at hc
  obtain ⟨op, _, rfl⟩ := hc
  rfl

theorem Aborting.head_cases {a b c d : Op α σ} {st : List (Call α σ)} {e : error}
    (h : Aborting [a, b, c, d] st (some e)) :
    st = [⟨a, some e⟩] ∨ st = [⟨a, none⟩, ⟨b, some e⟩] ∨
    st = [⟨a, none⟩, ⟨b, none⟩, ⟨c, some e⟩] ∨
    st = [⟨a, none⟩, ⟨b, none⟩, ⟨c, none⟩, ⟨d, some e⟩] := by
  cases h with
  | fail => exact Or.inl rfl
  | step _ h =>
    cases h with
    | fail => exact Or.inr (Or.inl rfl)
    | step _ h =>
      cases h with
      | fail => exact Or.inr (Or.inr (Or.inl rfl))
      | step _ h =>
        cases h with
        | fail => exact Or.inr (Or.inr (Or.inr rfl))
        | step _ h => cases h

theorem Package_command (verb pkg : String) :
    "DEBIAN_FRONTEND=noninteractive sudo -E apt-get -o DPkg::Lock::Timeout="
      ++ toString (300 : Nat) ++ " " ++ verb ++ " -y  " ++ pkg = aptCommand verb pkg := by
  rfl

/-- `Package` when the metadata refresh fails. -/
theorem Package_refresh_failed (x : Externals α σ ε ω) (name : String) (action : PackageAction)
    (s : Run α σ ε ω) (e : error) (w1 : ω)
    (ha : action = .Install ∨ action = .Upgrade)
    (hr : x.waitForLockAptGetUpdate s.provisioner s.world = (some e, w1)) :
    Package x name action s =
      (some e, ⟨s.provisioner, w1,
        s.calls ++ [⟨.waitForLockAptGetUpdate, some e⟩, ⟨.Package name action, some e⟩]⟩) := by
  rcases ha with rfl | rfl <;>
    simp [Package, Package.body, waitForLockAptGetUpdate, Run.record, hr]

/-- `Package` on Install or Upgrade when the metadata refresh succeeds. -/
theorem Package_refreshed (x : Externals α σ ε ω) (name : String) (action : PackageAction)
    (s : Run α σ ε ω) (w1 w2 : ω) (out : String) (err : Option error)
    (ha : action = .Install ∨ action = .Upgrade)
    (hr : x.waitForLockAptGetUpdate s.provisioner s.world = (none, w1))
    (hs : x.SSHCommand s.provisioner (aptCommand (aptVerb action) (aptName name)) w1
      = ((out, err), w2)) :
    Package x name action s =
      (commandFailed err, ⟨s.provisioner, w2,
        s.calls ++ [⟨.waitForLockAptGetUpdate, none⟩,
          ⟨.Debugf "package: action=%s name=%s" [x.actionString action, aptName name], none⟩,
          ⟨.SSHCommand (aptCommand (aptVerb action) (aptName name)) out, err⟩,
          ⟨.Package name action, commandFailed err⟩]⟩) := by
  rcases ha with rfl | rfl <;> cases err <;>
    simp [Package, Package.body, waitForLockAptGetUpdate, SSHCommand, log.Debugf, Run.record,
      hr, Package_command, aptVerb, aptName, commandFailed] at hs ⊢ <;>
    simp [hs]

/-- `Package` on Remove or Purge. -/
theorem Package_not_refreshed (x : Externals α σ ε ω) (name : String) (action : PackageAction)
    (s : Run α σ ε ω) (w2 : ω) (out : String) (err : Option error)
    (ha : action = .Remove ∨ action = .Purge)
    (hs : x.SSHCommand s.provisioner (aptCommand (aptVerb action) (aptName name)) s.world
      = ((out, err), w2)) :
    Package x name action s =
      (commandFailed err, ⟨s.provisioner, w2,
        s.calls ++ [
          ⟨.Debugf "package: action=%s name=%s" [x.actionString action, aptName name], none⟩,
          ⟨.SSHCommand (aptCommand (aptVerb action) (aptName name)) out, err⟩,
          ⟨.Package name action, commandFailed err⟩]⟩) := by
  rcases ha with rfl | rfl <;> cases err <;>
    simp [Package, Package.body, SSHCommand, log.Debugf, Run.record,
      Package_command, aptVerb, aptName, commandFailed] at hs ⊢ <;>
    simp [hs]

/-- A call of `Package` leaves the provisioner as it is and logs one step, the
call itself with the error it returns. -/
theorem Package_steps (x : Externals α σ ε ω) (name : String) (action : PackageAction)
    (s : Run α σ ε ω) :
    (Package x name action s).2.provisioner = s.provisioner ∧
    (Package x name action s).2.calls = s.calls ++ newCalls s (Package x name action s).2 ∧
    steps (newCalls s (Package x name action s).2)
      = [⟨.Package name action, (Package x name action s).1⟩] := by
  have hcases : (action = .Install ∨ action = .Upgrade) ∨ (action = .Remove ∨ action = .Purge) := by
    cases action <;> simp
  rcases hcases with ha | ha
  · rcases hr : x.waitForLockAptGetUpdate s.provisioner s.world with ⟨_ | e, w1⟩
    · rcases hs : x.SSHCommand s.provisioner (aptCommand (aptVerb action) (aptName name)) w1
        with ⟨⟨out, err⟩, w2⟩
      rw [Package_refreshed x name action s w1 w2 out err ha hr hs]
      simp [newCalls, steps, Op.isStep]
    · rw [Package_refresh_failed x name action s e w1 ha hr]
      simp [newCalls, steps, Op.isStep]
  · rcases hs : x.SSHCommand s.provisioner (aptCommand (aptVerb action) (aptName name)) s.world
      with ⟨⟨out, err⟩, w2⟩
    rw [Package_not_refreshed x name action s w2 out err ha hs]
    simp [newCalls, steps, Op.isStep]

/-- The loop over the base packages: the calls of `Package` follow the list, up
to the first that fails. -/
theorem installBasePackages_steps (x : Externals α σ ε ω) (pkgs : List String)
    (s : Run α σ ε ω) :
    (Provision.installBasePackages x pkgs s).2.provisioner = s.provisioner ∧
    (Provision.installBasePackages x pkgs s).2.calls
      = s.calls ++ newCalls s (Provision.installBasePackages x pkgs s).2 ∧
    Aborting (pkgs.map (fun n => Op.Package n .Install))
      (steps (newCalls s (Provision.installBasePackages x pkgs s).2))
      (Provision.installBasePackages x pkgs s).1 := by
  induction pkgs generalizing s with
  | nil => simp [Provision.installBasePackages, newCalls, steps, Aborting.done]
  | cons pkg rest ih =>
    obtain ⟨hp, hc, hst⟩ := Package_steps x pkg .Install s
    rcases hP : Package x pkg .Install s with ⟨_ | e, t⟩
    · rw [hP] at hp hc hst
      obtain ⟨ihp, ihc, iha⟩ := ih t
      have htr := newCalls_trans hc ihc
      simp only [Provision.installBasePackages, hP]
      refine ⟨ihp.trans hp, htr.1, ?_⟩
      rw [htr.2, steps_append, hst]
      exact .step _ iha
    · rw [hP] at hp hc hst
      simp only [Provision.installBasePackages, hP]
      refine ⟨hp, hc, ?_⟩
      rw [hst]
      exact .fail _ _ _

/-- A probe of the docker daemon leaves the provisioner as it is and logs no
step. -/
theorem dockerDaemonResponding_steps (x : Externals α σ ε ω) (s : Run α σ ε ω) :
    (dockerDaemonResponding x s).2.provisioner = s.provisioner ∧
    (dockerDaemonResponding x s).2.calls
      = s.calls ++ newCalls s (dockerDaemonResponding x s).2 ∧
    steps (newCalls s (dockerDaemonResponding x s).2) = [] := by
  rcases hs : x.SSHCommand s.provisioner "sudo docker version" s.world with ⟨⟨out, _ | e⟩, w⟩ <;>
    simp [dockerDaemonResponding, dockerDaemonResponding.body, SSHCommand, log.Debug,
      log.Warnf, log.Debugf, Run.record, hs, newCalls, steps, Op.isStep]

/-- The poll of `WaitFor` on the docker daemon logs no step. -/
theorem WaitFor_loop_steps (x : Externals α σ ε ω) (n : Nat) (s : Run α σ ε ω) :
    (WaitFor.loop x (dockerDaemonResponding x) n s).2.provisioner = s.provisioner ∧
    (WaitFor.loop x (dockerDaemonResponding x) n s).2.calls
      = s.calls ++ newCalls s (WaitFor.loop x (dockerDaemonResponding x) n s).2 ∧
    steps (newCalls s (WaitFor.loop x (dockerDaemonResponding x) n s).2) = [] := by
  induction n generalizing s with
  | zero => simp [WaitFor.loop, newCalls, steps]
  | succ n ih =>
    obtain ⟨hp, hc, hst⟩ := dockerDaemonResponding_steps x s
    rcases hP : dockerDaemonResponding x s with ⟨_ | _, t⟩
    · rw [hP] at hp hc hst
      obtain ⟨ihp, ihc, ihs⟩ := ih t
      have htr := newCalls_trans hc ihc
      simp only [WaitFor.loop, hP]
      refine ⟨ihp.trans hp, htr.1, ?_⟩
      rw [htr.2, steps_append, hst, ihs]
      rfl
    · rw [hP] at hp hc hst
      simp only [WaitFor.loop, hP]
      exact ⟨hp, hc, hst⟩

/-- The wait for the docker daemon leaves the provisioner as it is and logs one
step, the call of `WaitFor` with the error it returns. -/
theorem WaitFor_steps (x : Externals α σ ε ω) (s : Run α σ ε ω) :
    (WaitFor x (dockerDaemonResponding x) s).2.provisioner = s.provisioner ∧
    (WaitFor x (dockerDaemonResponding x) s).2.calls
      = s.calls ++ newCalls s (WaitFor x (dockerDaemonResponding x) s).2 ∧
    steps (newCalls s (WaitFor x (dockerDaemonResponding x) s).2)
      = [⟨.WaitFor, (WaitFor x (dockerDaemonResponding x) s).1⟩] := by
  obtain ⟨hp, hc, hst⟩ := WaitFor_loop_steps x x.maxAttempts s
  have h : (WaitFor x (dockerDaemonResponding x) s).2.calls
      = s.calls ++ (newCalls s (WaitFor.loop x (dockerDaemonResponding x) x.maxAttempts s).2
          ++ [⟨.WaitFor, (WaitFor x (dockerDaemonResponding x) s).1⟩]) := by
    simp only [WaitFor, Run.record]
    rw [← List.append_assoc, ← hc]
  refine ⟨?_, calls_eq_of_append h, ?_⟩
  · simpa [WaitFor, Run.record] using hp
  · rw [newCalls_of_append h, steps_append, hst]
    simp [steps, Op.isStep]

@[simp] theorem log_Debug_provisioner (msg : String) (s : Run α σ ε ω) :
    (log.Debug msg s).provisioner = s.provisioner := rfl

@[simp] theorem log_Debug_calls (msg : String) (s : Run α σ ε ω) :
    (log.Debug msg s).calls = s.calls ++ [⟨.Debug msg, none⟩] := rfl

@[simp] theorem assign_provisioner (s : Run α σ ε ω)
    (f : UbuntuSystemdProvisioner α σ ε → UbuntuSystemdProvisioner α σ ε) :
    (s.assign f).provisioner = f s.provisioner := rfl

@[simp] theorem assign_calls (s : Run α σ ε ω)
    (f : UbuntuSystemdProvisioner α σ ε → UbuntuSystemdProvisioner α σ ε) :
    (s.assign f).calls = s.calls := rfl

theorem waitForCloudInit_spec {x : Externals α σ ε ω} {s t : Run α σ ε ω} {r : Option error}
    (h : waitForCloudInit x s = (r, t)) :
    t.provisioner = s.provisioner ∧ t.calls = s.calls ++ [⟨.waitForCloudInit, r⟩] := by
  simp only [waitForCloudInit, Run.record, Prod.mk.injEq] at h
  obtain ⟨rfl, rfl⟩ := h
  exact ⟨rfl, rfl⟩

theorem decideStorageDriver_spec {x : Externals α σ ε ω} {s t : Run α σ ε ω} {r : Option error}
    {d drv sd : String} (h : decideStorageDriver x d drv s = (sd, r, t)) :
    t.provisioner = s.provisioner ∧ t.calls = s.calls ++ [⟨.decideStorageDriver d drv sd, r⟩] := by
  simp only [decideStorageDriver, Run.record, Prod.mk.injEq] at h
  obtain ⟨rfl, rfl, rfl⟩ := h
  exact ⟨rfl, rfl⟩

theorem GetMachineName_spec {x : Externals α σ ε ω} {s t : Run α σ ε ω} {name : String}
    (h : GetMachineName x s = (name, t)) :
    t.provisioner = s.provisioner ∧ t.calls = s.calls ++ [⟨.GetMachineName name, none⟩] := by
  simp only [GetMachineName, Run.record, Prod.mk.injEq] at h
  obtain ⟨rfl, rfl⟩ := h
  exact ⟨rfl, rfl⟩

theorem SetHostname_spec {x : Externals α σ ε ω} {s t : Run α σ ε ω} {r : Option error}
    {name : String} (h : SetHostname x name s = (r, t)) :
    t.provisioner = s.provisioner ∧ t.calls = s.calls ++ [⟨.SetHostname name, r⟩] := by
  simp only [SetHostname, Run.record, Prod.mk.injEq] at h
  obtain ⟨rfl, rfl⟩ := h
  exact ⟨rfl, rfl⟩

theorem installDockerGeneric_spec {x : Externals α σ ε ω} {s t : Run α σ ε ω}
    {r : Option error} {url version : String}
    (h : installDockerGeneric x url version s = (r, t)) :
    t.provisioner = s.provisioner ∧
    t.calls = s.calls ++ [⟨.installDockerGeneric url version, r⟩] := by
  simp only [installDockerGeneric, Run.record, Prod.mk.injEq] at h
  obtain ⟨rfl, rfl⟩ := h
  exact ⟨rfl, rfl⟩

theorem setRemoteAuthOptions_spec {x : Externals α σ ε ω} {s t : Run α σ ε ω} {a : α}
    (h : setRemoteAuthOptions x s = (a, t)) :
    t.provisioner = s.provisioner ∧ t.calls = s.calls ++ [⟨.setRemoteAuthOptions a, none⟩] := by
  simp only [setRemoteAuthOptions, Run.record, Prod.mk.injEq] at h
  obtain ⟨rfl, rfl⟩ := h
  exact ⟨rfl, rfl⟩

theorem ConfigureAuth_spec {x : Externals α σ ε ω} {s t : Run α σ ε ω} {r : Option error}
    (h : ConfigureAuth x s = (r, t)) :
    t.provisioner = s.provisioner ∧ t.calls = s.calls ++ [⟨.ConfigureAuth, r⟩] := by
  simp only [ConfigureAuth, Run.record, Prod.mk.injEq] at h
  obtain ⟨rfl, rfl⟩ := h
  exact ⟨rfl, rfl⟩

theorem configureSwarm_spec {x : Externals α σ ε ω} {s t : Run α σ ε ω} {r : Option error}
    {so : swarm.Options σ} {a : α} (h : configureSwarm x so a s = (r, t)) :
    t.provisioner = s.provisioner ∧ t.calls = s.calls ++ [⟨.configureSwarm so a, r⟩] := by
  simp only [configureSwarm, Run.record, Prod.mk.injEq] at h
  obtain ⟨rfl, rfl⟩ := h
  exact ⟨rfl, rfl⟩

theorem Service_spec {x : Externals α σ ε ω} {s t : Run α σ ε ω} {r : Option error}
    {name : String} {action : ServiceAction} (h : Service x name action s = (r, t)) :
    t.provisioner = s.provisioner ∧ t.calls = s.calls ++ [⟨.Service name action, r⟩] := by
  simp only [Service, Run.record, Prod.mk.injEq] at h
  obtain ⟨rfl, rfl⟩ := h
  exact ⟨rfl, rfl⟩

theorem installBasePackages_spec {x : Externals α σ ε ω} {pkgs : List String}
    {s t : Run α σ ε ω} {r : Option error}
    (h : Provision.installBasePackages x pkgs s = (r, t)) :
    t.provisioner = s.provisioner ∧
    ∃ l, t.calls = s.calls ++ l ∧
      Aborting (pkgs.map (fun n => Op.Package n .Install)) (steps l) r := by
  have h0 := installBasePackages_steps x pkgs s
  rw [h] at h0
  exact ⟨h0.1, _, h0.2.1, h0.2.2⟩

theorem WaitFor_spec {x : Externals α σ ε ω} {s t : Run α σ ε ω} {r : Option error}
    (h : WaitFor x (dockerDaemonResponding x) s = (r, t)) :
    t.provisioner = s.provisioner ∧
    ∃ l, t.calls = s.calls ++ l ∧ steps l = [⟨.WaitFor, r⟩] := by
  have h0 := WaitFor_steps x s
  rw [h] at h0
  exact ⟨h0.1, _, h0.2.1, h0.2.2⟩

/-- The steps of `Provision` follow the script and stop at the first failure; a
run whose only steps are the wait for cloud-init and one more step has logged
nothing else but the message that precedes the wait. -/
theorem Provision_steps (x : Externals α σ ε ω) (swarmOptions : swarm.Options σ)
    (authOptions : α) (engineOptions : engine.Options ε) (s : Run α σ ε ω) :
    (Provision x swarmOptions authOptions engineOptions s).2.provisioner.SwarmOptions
      = swarmOptions ∧
    (Provision x swarmOptions authOptions engineOptions s).2.calls
      = s.calls ++ newCalls s (Provision x swarmOptions authOptions engineOptions s).2 ∧
    (∀ c : Call α σ,
      steps (newCalls s (Provision x swarmOptions authOptions engineOptions s).2)
          = [⟨.waitForCloudInit, none⟩, c] →
        newCalls s (Provision x swarmOptions authOptions engineOptions s).2
          = [⟨.Debug "waiting for cloud-init to complete", none⟩,
             ⟨.waitForCloudInit, none⟩, c]) ∧
    ∃ (sd name : String) (remoteAuthOptions : α),
      Aborting (script x swarmOptions engineOptions s.provisioner.Packages sd name
          remoteAuthOptions)
        (steps (newCalls s (Provision x swarmOptions authOptions engineOptions s).2))
        (Provision x swarmOptions authOptions engineOptions s).1 ∧
      ((Provision x swarmOptions authOptions engineOptions s).1 = none →
        (Provision x swarmOptions authOptions engineOptions s).2.provisioner =
          { s.provisioner with
            SwarmOptions := swarmOptions
            AuthOptions := remoteAuthOptions
            EngineOptions := { engineOptions with StorageDriver := sd } }) := by
  generalize hP : Provision x swarmOptions authOptions engineOptions s = r
  simp only [Provision] at hP
  split at hP
  · rename_i e t1 h
    obtain ⟨hp1, hc1⟩ := waitForCloudInit_spec h
    simp only [log_Debug_calls, assign_calls, log_Debug_provisioner, assign_provisioner,
      List.append_assoc, List.cons_append, List.nil_append] at hp1 hc1
    subst hP
    have hnew := newCalls_of_append hc1
    refine ⟨by rw [hp1], calls_eq_of_append hc1, ?_, "", "", authOptions, ?_, by simp⟩
    · rw [hnew]
      intro c h
      simp only [steps_cons, steps_append, steps_nil, Op.isStep, if_true, if_false,
        Bool.false_eq_true, List.append_nil, List.nil_append, List.cons_append,
        List.singleton_append] at h
      simp at h
    · rw [hnew]
      simp only [steps_cons, steps_append, steps_nil, Op.isStep, if_true, if_false,
        Bool.false_eq_true, List.append_nil, List.nil_append, List.cons_append,
        List.singleton_append]
      exact .fail _ _ _
  · rename_i t1 h
    obtain ⟨hp1, hc1⟩ := waitForCloudInit_spec h
    simp only [log_Debug_calls, assign_calls, log_Debug_provisioner, assign_provisioner,
      List.append_assoc, List.cons_append, List.nil_append] at hp1 hc1
    clear h
    rename t1.provisioner = _ => hp
    rename t1.calls = _ => hc
    split at hP
    · rename_i sd e t1 h
      obtain ⟨hp1, hc1⟩ := decideStorageDriver_spec h
      simp only [log_Debug_calls, assign_calls, log_Debug_provisioner, assign_provisioner,
        List.append_assoc, List.cons_append, List.nil_append, hp, hc] at hp1 hc1
      subst hP
      have hnew := newCalls_of_append hc1
      refine ⟨by rw [hp1], calls_eq_of_append hc1, ?_, sd, "", authOptions, ?_, by simp⟩
      · rw [hnew]
        intro c h
        simp only [steps_cons, steps_append, steps_nil, Op.isStep, if_true, if_false,
          Bool.false_eq_true, List.append_nil, List.nil_append, List.cons_append,
          List.singleton_append] at h
        simp only [List.cons.injEq, true_and, and_true] at h
        subst h
        rfl
      · rw [hnew]
        simp only [steps_cons, steps_append, steps_nil, Op.isStep, if_true, if_false,
          Bool.false_eq_true, List.append_nil, List.nil_append, List.cons_append,
          List.singleton_append]
        exact .step _ (.fail _ _ _)
    · rename_i sd t1 h
      obtain ⟨hp1, hc1⟩ := decideStorageDriver_spec h
      simp only [log_Debug_calls, assign_calls, log_Debug_provisioner, assign_provisioner,
        List.append_assoc, List.cons_append, List.nil_append, hp, hc] at hp1 hc1
      clear h hp hc
      rename t1.provisioner = _ => hp
      rename t1.calls = _ => hc
      generalize h : GetMachineName x _ = g at hP
      rcases g with ⟨name, t1⟩
      dsimp only at hP
      obtain ⟨hp1, hc1⟩ := GetMachineName_spec h
      simp only [log_Debug_calls, assign_calls, log_Debug_provisioner, assign_provisioner,
        List.append_assoc, List.cons_append, List.nil_append, hp, hc] at hp1 hc1
      clear h hp hc
      rename t1.provisioner = _ => hp
      rename t1.calls = _ => hc
      split at hP
      · rename_i e t1 h
        obtain ⟨hp1, hc1⟩ := SetHostname_spec h
        simp only [log_Debug_calls, assign_calls, log_Debug_provisioner, assign_provisioner,
          List.append_assoc, List.cons_append, List.nil_append, hp, hc] at hp1 hc1
        subst hP
        have hnew := newCalls_of_append hc1
        refine ⟨by rw [hp1], calls_eq_of_append hc1, ?_, sd, name, authOptions, ?_, by simp⟩
        · rw [hnew]
          intro c h
          simp only [steps_cons, steps_append, steps_nil, Op.isStep, if_true, if_false,
            Bool.false_eq_true, List.append_nil, List.nil_append, List.cons_append,
            List.singleton_append] at h
          simp at h
        · rw [hnew]
          simp only [steps_cons, steps_append, steps_nil, Op.isStep, if_true, if_false,
            Bool.false_eq_true, List.append_nil, List.nil_append, List.cons_append,
            List.singleton_append]
          exact .step _ (.step _ (.step _ (.fail _ _ _)))
      · rename_i t1 h
        obtain ⟨hp1, hc1⟩ := SetHostname_spec h
        simp only [log_Debug_calls, assign_calls, log_Debug_provisioner, assign_provisioner,
          List.append_assoc, List.cons_append, List.nil_append, hp, hc] at hp1 hc1
        clear h hp hc
        rename t1.provisioner = _ => hp
        rename t1.calls = _ => hc
        split at hP
        · rename_i e t1 h
          obtain ⟨hp1, l, hc1, ha⟩ := installBasePackages_spec h
          simp only [log_Debug_calls, assign_calls, log_Debug_provisioner, assign_provisioner,
            List.append_assoc, List.cons_append, List.nil_append, hp, hc] at hp1 hc1 ha
          subst hP
          have hnew := newCalls_of_append hc1
          refine ⟨by rw [hp1], calls_eq_of_append hc1, ?_, sd, name, authOptions, ?_, by simp⟩
          · rw [hnew]
            intro c h
            simp only [steps_cons, steps_append, steps_nil, Op.isStep, if_true, if_false,
              Bool.false_eq_true, List.append_nil, List.nil_append, List.cons_append,
              List.singleton_append] at h
            simp at h
          · rw [hnew]
            simp only [steps_cons, steps_append, steps_nil, Op.isStep, if_true, if_false,
              Bool.false_eq_true, List.append_nil, List.nil_append, List.cons_append,
              List.singleton_append]
            exact .step _ (.step _ (.step _ (.step _ (Aborting.append_fail _ ha))))
        · rename_i t1 h
          obtain ⟨hp1, l, hc1, ha⟩ := installBasePackages_spec h
          simp only [log_Debug_calls, assign_calls, log_Debug_provisioner, assign_provisioner,
            List.append_assoc, List.cons_append, List.nil_append, hp, hc] at hp1 hc1 ha
          clear h hp hc
          rename t1.provisioner = _ => hp
          rename t1.calls = _ => hc
          split at hP
          · rename_i e t1 h
            obtain ⟨hp1, hc1⟩ := installDockerGeneric_spec h
            simp only [log_Debug_calls, assign_calls, log_Debug_provisioner, assign_provisioner,
              List.append_assoc, List.cons_append, List.nil_append, hp, hc] at hp1 hc1
            subst hP
            have hnew := newCalls_of_append hc1
            refine ⟨by rw [hp1], calls_eq_of_append hc1, ?_, sd, name, authOptions, ?_, by simp⟩
            · rw [hnew]
              intro c h
              simp only [steps_cons, steps_append, steps_nil, Op.isStep, if_true, if_false,
                Bool.false_eq_true, List.append_nil, List.nil_append, List.cons_append,
                List.singleton_append] at h
              simp at h
            · rw [hnew]
              simp only [steps_cons, steps_append, steps_nil, Op.isStep, if_true, if_false,
                Bool.false_eq_true, List.append_nil, List.nil_append, List.cons_append,
                List.singleton_append]
              exact .step _ (.step _ (.step _ (.step _ (Aborting.append ha (.fail _ _ _)))))
          · rename_i t1 h
            obtain ⟨hp1, hc1⟩ := installDockerGeneric_spec h
            simp only [log_Debug_calls, assign_calls, log_Debug_provisioner, assign_provisioner,
              List.append_assoc, List.cons_append, List.nil_append, hp, hc] at hp1 hc1
            clear h hp hc
            rename t1.provisioner = _ => hp
            rename t1.calls = _ => hc
            split at hP
            · rename_i e t1 h
              obtain ⟨hp1, lw, hc1, hw⟩ := WaitFor_spec h
              simp only [log_Debug_calls, assign_calls, log_Debug_provisioner, assign_provisioner,
                List.append_assoc, List.cons_append, List.nil_append, hp, hc] at hp1 hc1
              subst hP
              have hnew := newCalls_of_append hc1
              refine ⟨by rw [hp1], calls_eq_of_append hc1, ?_, sd, name, authOptions, ?_, by simp⟩
              · rw [hnew]
                intro c h
                simp only [steps_cons, steps_append, steps_nil, Op.isStep, if_true, if_false,
                  Bool.false_eq_true, List.append_nil, List.nil_append, List.cons_append,
                  List.singleton_append, hw] at h
                simp at h
              · rw [hnew]
                simp only [steps_cons, steps_append, steps_nil, Op.isStep, if_true, if_false,
                  Bool.false_eq_true, List.append_nil, List.nil_append, List.cons_append,
                  List.singleton_append, hw]
                exact .step _ (.step _ (.step _ (.step _
                  (Aborting.append ha (.step _ (.fail _ _ _))))))
            · rename_i t1 h
              obtain ⟨hp1, lw, hc1, hw⟩ := WaitFor_spec h
              simp only [log_Debug_calls, assign_calls, log_Debug_provisioner, assign_provisioner,
                List.append_assoc, List.cons_append, List.nil_append, hp, hc] at hp1 hc1
              clear h hp hc
              rename t1.provisioner = _ => hp
              rename t1.calls = _ => hc
              generalize h : setRemoteAuthOptions x _ = g at hP
              rcases g with ⟨ao1, t1⟩
              dsimp only at hP
              obtain ⟨hp1, hc1⟩ := setRemoteAuthOptions_spec h
              simp only [log_Debug_calls, assign_calls, log_Debug_provisioner, assign_provisioner,
                List.append_assoc, List.cons_append, List.nil_append, hp, hc] at hp1 hc1
              clear h hp hc
              rename t1.provisioner = _ => hp
              rename t1.calls = _ => hc
              split at hP
              · rename_i e t1 h
                obtain ⟨hp1, hc1⟩ := ConfigureAuth_spec h
                simp only [log_Debug_calls, assign_calls, log_Debug_provisioner, assign_provisioner,
                  List.append_assoc, List.cons_append, List.nil_append, hp, hc] at hp1 hc1
                subst hP
                have hnew := newCalls_of_append hc1
                refine ⟨by rw [hp1], calls_eq_of_append hc1, ?_, sd, name, ao1, ?_, by simp⟩
                · rw [hnew]
                  intro c h
                  simp only [steps_cons, steps_append, steps_nil, Op.isStep, if_true, if_false,
                    Bool.false_eq_true, List.append_nil, List.nil_append, List.cons_append,
                    List.singleton_append, hw] at h
                  simp at h
                · rw [hnew]
                  simp only [steps_cons, steps_append, steps_nil, Op.isStep, if_true, if_false,
                    Bool.false_eq_true, List.append_nil, List.nil_append, List.cons_append,
                    List.singleton_append, hw]
                  exact .step _ (.step _ (.step _ (.step _
                    (Aborting.append ha (.step _ (.step _ (.step _ (.fail _ _ _))))))))
              · rename_i t1 h
                obtain ⟨hp1, hc1⟩ := ConfigureAuth_spec h
                simp only [log_Debug_calls, assign_calls, log_Debug_provisioner, assign_provisioner,
                  List.append_assoc, List.cons_append, List.nil_append, hp, hc] at hp1 hc1
                clear h hp hc
                rename t1.provisioner = _ => hp
                rename t1.calls = _ => hc
                split at hP
                · rename_i e t1 h
                  obtain ⟨hp1, hc1⟩ := configureSwarm_spec h
                  simp only [log_Debug_calls, assign_calls, log_Debug_provisioner, assign_provisioner,
                    List.append_assoc, List.cons_append, List.nil_append, hp, hc] at hp1 hc1
                  subst hP
                  have hnew := newCalls_of_append hc1
                  refine ⟨by rw [hp1], calls_eq_of_append hc1, ?_, sd, name, ao1, ?_, by simp⟩
                  · rw [hnew]
                    intro c h
                    simp only [steps_cons, steps_append, steps_nil, Op.isStep, if_true, if_false,
                      Bool.false_eq_true, List.append_nil, List.nil_append, List.cons_append,
                      List.singleton_append, hw] at h
                    simp at h
                  · rw [hnew]
                    simp only [steps_cons, steps_append, steps_nil, Op.isStep, if_true, if_false,
                      Bool.false_eq_true, List.append_nil, List.nil_append, List.cons_append,
                      List.singleton_append, hw]
                    exact .step _ (.step _ (.step _ (.step _
                      (Aborting.append ha (.step _ (.step _ (.step _ (.step _ (.fail _ _ _)))))))))
                · rename_i t1 h
                  obtain ⟨hp1, hc1⟩ := configureSwarm_spec h
                  simp only [log_Debug_calls, assign_calls, log_Debug_provisioner, assign_provisioner,
                    List.append_assoc, List.cons_append, List.nil_append, hp, hc] at hp1 hc1
                  clear h hp hc
                  rename t1.provisioner = _ => hp
                  rename t1.calls = _ => hc
                  rcases r with ⟨res, tf⟩
                  obtain ⟨hp1, hc1⟩ := Service_spec hP
                  simp only [log_Debug_calls, assign_calls, log_Debug_provisioner, assign_provisioner,
                    List.append_assoc, List.cons_append, List.nil_append, hp, hc] at hp1 hc1
                  have hnew := newCalls_of_append hc1
                  refine ⟨by rw [hp1], calls_eq_of_append hc1, ?_, sd, name, ao1, ?_, fun _ => hp1⟩
                  · rw [hnew]
                    intro c h
                    simp only [steps_cons, steps_append, steps_nil, Op.isStep, if_true, if_false,
                      Bool.false_eq_true, List.append_nil, List.nil_append, List.cons_append,
                      List.singleton_append, hw] at h
                    simp at h
                  · rw [hnew]
                    simp only [steps_cons, steps_append, steps_nil, Op.isStep, if_true, if_false,
                      Bool.false_eq_true, List.append_nil, List.nil_append, List.cons_append,
                      List.singleton_append, hw]
                    cases res with
                    | none =>
                      exact .step _ (.step _ (.step _ (.step _
                        (Aborting.append ha
                          (.step _ (.step _ (.step _ (.step _ (.step _ (.step _ .done))))))))))
                    | some e =>
                      exact .step _ (.step _ (.step _ (.step _
                        (Aborting.append ha
                          (.step _ (.step _ (.step _ (.step _ (.step _ (.fail _ _ _))))))))))

/-- A call `Package(name, Install)` that returns nil has logged the refresh, the
log message, the remote command and its own entry. -/
theorem Package_success {x : Externals α σ ε ω} {name : String} {s t : Run α σ ε ω}
    (h : Package x name .Install s = (none, t)) :
    t.provisioner = s.provisioner ∧ ∃ out, t.calls = s.calls ++ packageLog x name out := by
  rcases hr : x.waitForLockAptGetUpdate s.provisioner s.world with ⟨_ | e, w1⟩
  · rcases hs : x.SSHCommand s.provisioner (aptCommand (aptVerb .Install) (aptName name)) w1
      with ⟨⟨out, err⟩, w2⟩
    rw [Package_refreshed x name .Install s w1 w2 out err (Or.inl rfl) hr hs] at h
    cases err with
    | none =>
      simp only [commandFailed, Option.map_none', Prod.mk.injEq, true_and] at h
      subst h
      exact ⟨rfl, out, rfl⟩
    | some e => simp [commandFailed] at h
  · rw [Package_refresh_failed x name .Install s e w1 (Or.inl rfl) hr] at h
    simp at h

/-- The loop over the base packages, when it returns nil, has logged one
successful call of `Package` for each name, in list order. -/
theorem installBasePackages_success {x : Externals α σ ε ω} {pkgs : List String}
    {s t : Run α σ ε ω} (h : Provision.installBasePackages x pkgs s = (none, t)) :
    t.provisioner = s.provisioner ∧
    ∃ outs : List String, outs.length = pkgs.length ∧
      t.calls = s.calls ++ (List.zipWith (packageLog x) pkgs outs).flatten := by
  induction pkgs generalizing s with
  | nil =>
    simp only [Provision.installBasePackages, Prod.mk.injEq, true_and] at h
    subst h
    exact ⟨rfl, [], rfl, by simp⟩
  | cons pkg rest ih =>
    rcases hP : Package x pkg .Install s with ⟨_ | e, u⟩
    · simp only [Provision.installBasePackages, hP] at h
      obtain ⟨hp, out, hc⟩ := Package_success hP
      obtain ⟨ihp, outs, hlen, ihc⟩ := ih h
      refine ⟨ihp.trans hp, out :: outs, by simp [hlen], ?_⟩
      rw [ihc, hc]
      simp [List.append_assoc]
    · simp [Provision.installBasePackages, hP] at h

/-- A probe of the docker daemon logs either the calls of a probe that finds
the daemon responding or those of a probe that does not. -/
theorem dockerDaemonResponding_log (x : Externals α σ ε ω) (s : Run α σ ε ω) :
    (dockerDaemonResponding x s).2.provisioner = s.provisioner ∧
    (((dockerDaemonResponding x s).1 = true ∧
        ∃ out, (dockerDaemonResponding x s).2.calls = s.calls ++ respondingProbeLog out) ∨
     ((dockerDaemonResponding x s).1 = false ∧
        ∃ out e, (dockerDaemonResponding x s).2.calls = s.calls ++ failedProbeLog out e)) := by
  rcases hs : x.SSHCommand s.provisioner "sudo docker version" s.world with ⟨⟨out, _ | e⟩, w⟩
  · refine ⟨?_, Or.inl ⟨?_, out, ?_⟩⟩ <;>
      simp [dockerDaemonResponding, dockerDaemonResponding.body, SSHCommand, log.Debug,
        Run.record, hs, respondingProbeLog]
  · refine ⟨?_, Or.inr ⟨?_, out, e, ?_⟩⟩ <;>
      simp [dockerDaemonResponding, dockerDaemonResponding.body, SSHCommand, log.Debug,
        log.Warnf, log.Debugf, Run.record, hs, failedProbeLog]

/-- The poll on the docker daemon, when it returns nil, has logged fewer failed
probes than it had attempts, then a probe that found the daemon responding. -/
theorem WaitFor_loop_success {x : Externals α σ ε ω} {n : Nat} {s t : Run α σ ε ω}
    (h : WaitFor.loop x (dockerDaemonResponding x) n s = (none, t)) :
    t.provisioner = s.provisioner ∧
    ∃ (failed : List (String × error)) (out : String), failed.length < n ∧
      t.calls = s.calls
        ++ ((failed.map (fun p => failedProbeLog p.1 p.2)).flatten ++ respondingProbeLog out) := by
  induction n generalizing s with
  | zero => simp [WaitFor.loop] at h
  | succ n ih =>
    obtain ⟨hp, hlog⟩ := dockerDaemonResponding_log x s
    rcases hP : dockerDaemonResponding x s with ⟨_ | _, u⟩
    · rw [hP] at hp hlog
      simp only [WaitFor.loop, hP] at h
      rcases hlog with ⟨hb, _⟩ | ⟨_, out1, e1, hc⟩
      · cases hb
      · obtain ⟨ihp, failed, out, hlen, ihc⟩ := ih h
        refine ⟨ihp.trans hp, (out1, e1) :: failed, out, by simp [hlen], ?_⟩
        rw [ihc, hc]
        simp [List.append_assoc]
    · rw [hP] at hp hlog
      simp only [WaitFor.loop, hP, Prod.mk.injEq, true_and] at h
      subst h
      rcases hlog with ⟨_, out, hc⟩ | ⟨hb, _⟩
      · exact ⟨hp, [], out, Nat.succ_pos n, by simpa using hc⟩
      · cases hb

/-- The wait for the docker daemon, when it returns nil, has logged the failed
probes, the probe that found the daemon responding, and its own entry. -/
theorem WaitFor_success {x : Externals α σ ε ω} {s t : Run α σ ε ω}
    (h : WaitFor x (dockerDaemonResponding x) s = (none, t)) :
    t.provisioner = s.provisioner ∧
    ∃ (failed : List (String × error)) (out : String), failed.length < x.maxAttempts ∧
      t.calls = s.calls
        ++ ((failed.map (fun p => failedProbeLog p.1 p.2)).flatten
          ++ (respondingProbeLog out ++ [⟨.WaitFor, none⟩])) := by
  rcases hL : WaitFor.loop x (dockerDaemonResponding x) x.maxAttempts s with ⟨r, u⟩
  simp only [WaitFor, hL, Run.record, Prod.mk.injEq] at h
  obtain ⟨hr, ht⟩ := h
  subst hr
  obtain ⟨hp, failed, out, hlen, hc⟩ := WaitFor_loop_success hL
  subst ht
  exact ⟨hp, failed, out, hlen, by simp [hc, List.append_assoc]⟩

theorem steps_packageLogs (x : Externals α σ ε ω) (pkgs outs : List String)
    (hlen : outs.length = pkgs.length) :
    steps ((List.zipWith (packageLog x) pkgs outs).flatten)
      = pkgs.map (fun n => (⟨Op.Package n .Install, none⟩ : Call α σ)) := by
  induction pkgs generalizing outs with
  | nil => simp
  | cons pkg rest ih =>
    cases outs with
    | nil => simp at hlen
    | cons out outs =>
      simp only [List.length_cons, Nat.add_right_cancel_iff] at hlen
      rw [List.zipWith_cons_cons, List.flatten_cons, steps_append, ih outs hlen]
      rfl

theorem steps_failedProbeLogs (failed : List (String × error)) :
    steps ((failed.map (fun p => (failedProbeLog p.1 p.2 : List (Call α σ)))).flatten) = [] := by
  induction failed with
  | nil => simp
  | cons p rest ih =>
    rw [List.map_cons, List.flatten_cons, steps_append, ih]
    rfl

/-- The call log of a run of `Provision` that returns nil. -/
theorem Provision_success_log (x : Externals α σ ε ω) (swarmOptions : swarm.Options σ)
    (authOptions : α) (engineOptions : engine.Options ε) (s : Run α σ ε ω)
    (hr : (Provision x swarmOptions authOptions engineOptions s).1 = none) :
    ∃ (sd name : String) (remoteAuthOptions : α) (outs : List String)
      (failed : List (String × error)) (out : String),
      outs.length = s.provisioner.Packages.length ∧
      failed.length < x.maxAttempts ∧
      (Provision x swarmOptions authOptions engineOptions s).2.calls
        = s.calls ++
          ([⟨.Debug "waiting for cloud-init to complete", none⟩,
            ⟨.waitForCloudInit, none⟩,
            ⟨.decideStorageDriver x.DefaultStorageDriver engineOptions.StorageDriver sd, none⟩,
            ⟨.Debug "setting hostname", none⟩,
            ⟨.GetMachineName name, none⟩,
            ⟨.SetHostname name, none⟩,
            ⟨.Debug "installing base packages", none⟩]
          ++ (List.zipWith (packageLog x) s.provisioner.Packages outs).flatten
          ++ [⟨.installDockerGeneric engineOptions.InstallURL engineOptions.Version, none⟩,
              ⟨.Debug "waiting for docker daemon", none⟩]
          ++ (failed.map (fun p => failedProbeLog p.1 p.2)).flatten
          ++ respondingProbeLog out
          ++ [⟨.WaitFor, none⟩,
              ⟨.setRemoteAuthOptions remoteAuthOptions, none⟩,
              ⟨.Debug "configuring auth", none⟩,
              ⟨.ConfigureAuth, none⟩,
              ⟨.Debug "configuring swarm", none⟩,
              ⟨.configureSwarm { swarmOptions with Env := engineOptions.Env }
                remoteAuthOptions, none⟩,
              ⟨.Debug "enabling docker in systemd", none⟩,
              ⟨.Service "docker" .Enable, none⟩]) := by
  generalize hP : Provision x swarmOptions authOptions engineOptions s = r at hr
  simp only [Provision] at hP
  split at hP
  · subst hP
    simp at hr
  · rename_i t1 h
    obtain ⟨hp1, hc1⟩ := waitForCloudInit_spec h
    simp only [log_Debug_calls, assign_calls, log_Debug_provisioner, assign_provisioner,
      List.append_assoc, List.cons_append, List.nil_append] at hp1 hc1
    clear h
    rename t1.provisioner = _ => hp
    rename t1.calls = _ => hc
    split at hP
    · subst hP
      simp at hr
    · rename_i sd t1 h
      obtain ⟨hp1, hc1⟩ := decideStorageDriver_spec h
      simp only [log_Debug_calls, assign_calls, log_Debug_provisioner, assign_provisioner,
        List.append_assoc, List.cons_append, List.nil_append, hp, hc] at hp1 hc1
      clear h hp hc
      rename t1.provisioner = _ => hp
      rename t1.calls = _ => hc
      generalize h : GetMachineName x _ = g at hP
      rcases g with ⟨name, t1⟩
      dsimp only at hP
      obtain ⟨hp1, hc1⟩ := GetMachineName_spec h
      simp only [log_Debug_calls, assign_calls, log_Debug_provisioner, assign_provisioner,
        List.append_assoc, List.cons_append, List.nil_append, hp, hc] at hp1 hc1
      clear h hp hc
      rename t1.provisioner = _ => hp
      rename t1.calls = _ => hc
      split at hP
      · subst hP
        simp at hr
      · rename_i t1 h
        obtain ⟨hp1, hc1⟩ := SetHostname_spec h
        simp only [log_Debug_calls, assign_calls, log_Debug_provisioner, assign_provisioner,
          List.append_assoc, List.cons_append, List.nil_append, hp, hc] at hp1 hc1
        clear h hp hc
        rename t1.provisioner = _ => hp
        rename t1.calls = _ => hc
        split at hP
        · subst hP
          simp at hr
        · rename_i t1 h
          obtain ⟨hp1, outs, hlen, hc1⟩ := installBasePackages_success h
          simp only [log_Debug_calls, assign_calls, log_Debug_provisioner, assign_provisioner,
            List.append_assoc, List.cons_append, List.nil_append, hp, hc] at hp1 hc1 hlen
          clear h hp hc
          rename t1.provisioner = _ => hp
          rename t1.calls = _ => hc
          split at hP
          · subst hP
            simp at hr
          · rename_i t1 h
            obtain ⟨hp1, hc1⟩ := installDockerGeneric_spec h
            simp only [log_Debug_calls, assign_calls, log_Debug_provisioner, assign_provisioner,
              List.append_assoc, List.cons_append, List.nil_append, hp, hc] at hp1 hc1
            clear h hp hc
            rename t1.provisioner = _ => hp
            rename t1.calls = _ => hc
            split at hP
            · subst hP
              simp at hr
            · rename_i t1 h
              obtain ⟨hp1, failed, out, hfl, hc1⟩ := WaitFor_success h
              simp only [log_Debug_calls, assign_calls, log_Debug_provisioner, assign_provisioner,
                List.append_assoc, List.cons_append, List.nil_append, hp, hc] at hp1 hc1
              clear h hp hc
              rename t1.provisioner = _ => hp
              rename t1.calls = _ => hc
              generalize h : setRemoteAuthOptions x _ = g at hP
              rcases g with ⟨ao1, t1⟩
              dsimp only at hP
              obtain ⟨hp1, hc1⟩ := setRemoteAuthOptions_spec h
              simp only [log_Debug_calls, assign_calls, log_Debug_provisioner, assign_provisioner,
                List.append_assoc, List.cons_append, List.nil_append, hp, hc] at hp1 hc1
              clear h hp hc
              rename t1.provisioner = _ => hp
              rename t1.calls = _ => hc
              split at hP
              · subst hP
                simp at hr
              · rename_i t1 h
                obtain ⟨hp1, hc1⟩ := ConfigureAuth_spec h
                simp only [log_Debug_calls, assign_calls, log_Debug_provisioner, assign_provisioner,
                  List.append_assoc, List.cons_append, List.nil_append, hp, hc] at hp1 hc1
                clear h hp hc
                rename t1.provisioner = _ => hp
                rename t1.calls = _ => hc
                split at hP
                · subst hP
                  simp at hr
                · rename_i t1 h
                  obtain ⟨hp1, hc1⟩ := configureSwarm_spec h
                  simp only [log_Debug_calls, assign_calls, log_Debug_provisioner, assign_provisioner,
                    List.append_assoc, List.cons_append, List.nil_append, hp, hc] at hp1 hc1
                  clear h hp hc
                  rename t1.provisioner = _ => hp
                  rename t1.calls = _ => hc
                  rcases r with ⟨res, tf⟩
                  simp only at hr
                  subst hr
                  obtain ⟨hp1, hc1⟩ := Service_spec hP
                  simp only [log_Debug_calls, assign_calls, log_Debug_provisioner, assign_provisioner,
                    List.append_assoc, List.cons_append, List.nil_append, hp, hc] at hp1 hc1
                  refine ⟨sd, name, ao1, outs, failed, out, hlen, hfl, ?_⟩
                  rw [hc1]
                  simp only [respondingProbeLog, List.append_assoc, List.cons_append, List.nil_append]

theorem script_eq (x : Externals α σ ε ω) (swarmOptions : swarm.Options σ)
    (engineOptions : engine.Options ε) (pkgs : List String) (sd name : String)
    (remoteAuthOptions : α) :
    script x swarmOptions engineOptions pkgs sd name remoteAuthOptions
      = scriptHead x engineOptions sd name
        ++ (pkgs.map (fun n => Op.Package n .Install)
          ++ scriptTail swarmOptions engineOptions remoteAuthOptions) := by
  simp [script, scriptHead, scriptTail]

/-- The steps of a run of `Provision` fall into the steps before the base
packages, the calls of `Package`, and the steps after them; a part is entered
only when the part before it has succeeded as a whole. -/
theorem Provision_phases (x : Externals α σ ε ω) (swarmOptions : swarm.Options σ)
    (authOptions : α) (engineOptions : engine.Options ε) (s : Run α σ ε ω) :
    ∃ (sd name : String) (remoteAuthOptions : α) (sA sP sB : List (Call α σ)),
      steps (newCalls s (Provision x swarmOptions authOptions engineOptions s).2)
        = sA ++ (sP ++ sB) ∧
      ((∃ e, (Provision x swarmOptions authOptions engineOptions s).1 = some e ∧
          Aborting (scriptHead x engineOptions sd name) sA (some e) ∧ sP = [] ∧ sB = []) ∨
       (Aborting (scriptHead x engineOptions sd name) sA none ∧
          ∃ e, (Provision x swarmOptions authOptions engineOptions s).1 = some e ∧
            Aborting (s.provisioner.Packages.map (fun n => Op.Package n .Install)) sP (some e) ∧
            sB = []) ∨
       (Aborting (scriptHead x engineOptions sd name) sA none ∧
          Aborting (s.provisioner.Packages.map (fun n => Op.Package n .Install)) sP none ∧
          Aborting (scriptTail swarmOptions engineOptions remoteAuthOptions) sB
            (Provision x swarmOptions authOptions engineOptions s).1)) := by
  obtain ⟨_, _, _, sd, name, ao1, hA, _⟩ :=
    Provision_steps x swarmOptions authOptions engineOptions s
  rw [script_eq] at hA
  refine ⟨sd, name, ao1, ?_⟩
  rcases hA.split with ⟨e, hr, h1⟩ | ⟨sA, s1, hst, h1, h2⟩
  · exact ⟨_, [], [], by simp, Or.inl ⟨e, hr, h1, rfl, rfl⟩⟩
  · rcases h2.split with ⟨e, hr, h3⟩ | ⟨sP, sB, hst2, h3, h4⟩
    · exact ⟨sA, s1, [], by simp [hst], Or.inr (Or.inl ⟨h1, e, hr, h3, rfl⟩)⟩
    · exact ⟨sA, sP, sB, by rw [hst, hst2], Or.inr (Or.inr ⟨h1, h3, h4⟩)⟩

/-- The calls of `Package` of a run of `Provision` are those of the loop over
the base packages. -/
theorem Provision_package_calls (x : Externals α σ ε ω)
    (swarmOptions : swarm.Options σ) (authOptions : α) (engineOptions : engine.Options ε)
    (s : Run α σ ε ω) :
    ∃ sP : List (Call α σ),
      (newCalls s (Provision x swarmOptions authOptions engineOptions s).2).filter
        (fun c => c.op.isPackage) = sP ∧
      ((sP = [] ∧ ∀ name : String, ⟨.SetHostname name, none⟩
          ∉ newCalls s (Provision x swarmOptions authOptions engineOptions s).2) ∨
       (∃ e, (Provision x swarmOptions authOptions engineOptions s).1 = some e ∧
          Aborting (s.provisioner.Packages.map (fun n => Op.Package n .Install)) sP (some e)) ∨
       Aborting (s.provisioner.Packages.map (fun n => Op.Package n .Install)) sP none) := by
  obtain ⟨sd, name, ao1, sA, sP, sB, hst, hcase⟩ :=
    Provision_phases x swarmOptions authOptions engineOptions s
  have hfil : (newCalls s (Provision x swarmOptions authOptions engineOptions s).2).filter
      (fun c => c.op.isPackage)
      = sA.filter (fun c => c.op.isPackage) ++ (sP.filter (fun c => c.op.isPackage)
        ++ sB.filter (fun c => c.op.isPackage)) := by
    rw [← List.filter_append, ← List.filter_append, ← hst, steps, List.filter_filter]
    congr 1
    funext c
    cases c.op <;> rfl
  have hhead : ∀ {r : Option error}, Aborting (scriptHead x engineOptions sd name) sA r →
      sA.filter (fun c => c.op.isPackage) = [] := by
    intro r hA
    rw [List.filter_eq_nil_iff]
    intro c hc
    have := hA.op_mem hc
    simp only [scriptHead, List.mem_cons, List.mem_singleton, List.not_mem_nil, or_false] at this
    rcases this with h | h | h | h <;> simp [h, Op.isPackage]
  have hpk : ∀ {r : Option error},
      Aborting (s.provisioner.Packages.map (fun n => Op.Package n .Install)) sP r →
      sP.filter (fun c => c.op.isPackage) = sP := by
    intro r hP
    rw [List.filter_eq_self]
    intro c hc
    have := hP.op_mem hc
    simp only [List.mem_map] at this
    obtain ⟨n, _, hn⟩ := this
    simp [← hn, Op.isPackage]
  have htail : ∀ {r : Option error},
      Aborting (scriptTail swarmOptions engineOptions ao1) sB r →
      sB.filter (fun c => c.op.isPackage) = [] := by
    intro r hB
    rw [List.filter_eq_nil_iff]
    intro c hc
    have := hB.op_mem hc
    simp only [scriptTail, List.mem_cons, List.mem_singleton, List.not_mem_nil, or_false] at this
    rcases this with h | h | h | h | h | h <;> simp [h, Op.isPackage]
  rcases hcase with ⟨e1, hr, hA, rfl, rfl⟩ | ⟨hA, e1, hr, hP, rfl⟩ | ⟨hA, hP, hB⟩
  · refine ⟨[], by rw [hfil, hhead hA]; rfl, Or.inl ⟨rfl, ?_⟩⟩
    intro hname hmem
    have hs := mem_steps.mpr ⟨hmem, rfl⟩
    rw [hst] at hs
    simp only [List.append_nil] at hs
    rcases hA.head_cases with h | h | h | h <;> rw [h] at hs <;> simp [scriptHead] at hs
  · exact ⟨sP, by rw [hfil, hhead hA, hpk hP]; simp, Or.inr (Or.inl ⟨e1, hr, hP⟩)⟩
  · exact ⟨sP, by rw [hfil, hhead hA, hpk hP, htail hB]; simp, Or.inr (Or.inr hP)⟩

end lemmas

/-! ## The package action dispatcher -/

section dispatcher

variable {α σ ε ω : Type}

/-- C2. `Package(name, Remove)` and `Package(name, Purge)` never call
`waitForLockAptGetUpdate`; `Package(name, Install)` and `Package(name, Upgrade)`
always call it, once, and it is their first call, so it precedes the remote
package command. -/
theorem Package_metadata_refresh (x : Externals α σ ε ω) (name : String)
    (action : PackageAction) (s : Run α σ ε ω) :
    match action with
    | .Remove | .Purge =>
      (newCalls s (Package x name action s).2).any (fun c => c.op.isMetadataRefresh) = false
    | .Install | .Upgrade =>
      ∃ (err : Option error) (rest : List (Call α σ)),
        newCalls s (Package x name action s).2 = ⟨.waitForLockAptGetUpdate, err⟩ :: rest ∧
        rest.any (fun c => c.op.isMetadataRefresh) = false := by
  have hcases : (action = .Install ∨ action = .Upgrade) ∨ (action = .Remove ∨ action = .Purge) := by
    cases action <;> simp
  rcases hcases with ha | ha
  · rcases hr : x.waitForLockAptGetUpdate s.provisioner s.world with ⟨_ | e, w1⟩
    · rcases hs : x.SSHCommand s.provisioner (aptCommand (aptVerb action) (aptName name)) w1
        with ⟨⟨out, err⟩, w2⟩
      rw [Package_refreshed x name action s w1 w2 out err ha hr hs]
      rcases ha with rfl | rfl <;> simp only [newCalls, List.drop_left] <;>
        exact ⟨_, _, rfl, by simp [Op.isMetadataRefresh]⟩
    · rw [Package_refresh_failed x name action s e w1 ha hr]
      rcases ha with rfl | rfl <;> simp only [newCalls, List.drop_left] <;>
        exact ⟨_, _, rfl, by simp [Op.isMetadataRefresh]⟩
  · rcases hs : x.SSHCommand s.provisioner (aptCommand (aptVerb action) (aptName name)) s.world
      with ⟨⟨out, err⟩, w2⟩
    rw [Package_not_refreshed x name action s w2 out err ha hs]
    rcases ha with rfl | rfl <;> simp [newCalls, Op.isMetadataRefresh]

/-- C6. Once the metadata refresh, if any, has succeeded, `Package` executes
exactly one remote command, the apt-get command line with the non-interactive
environment flag, the lock timeout of 300, the verb of the action (install for
Install and Upgrade, remove, purge) and the package name ("docker-ce" for the
logical name "docker", the name itself otherwise). -/
theorem Package_remote_command (x : Externals α σ ε ω) (name : String)
    (action : PackageAction) (s : Run α σ ε ω)
    (h : action = .Remove ∨ action = .Purge ∨
      (x.waitForLockAptGetUpdate s.provisioner s.world).1 = none) :
    ∃ (out : String) (err : Option error),
      (newCalls s (Package x name action s).2).filter (fun c => c.op.isRemoteCommand)
        = [⟨.SSHCommand
            ("DEBIAN_FRONTEND=noninteractive sudo -E apt-get -o DPkg::Lock::Timeout=300 "
              ++ aptVerb action ++ " -y  " ++ aptName name) out, err⟩] := by
  have hcases : (action = .Install ∨ action = .Upgrade) ∨ (action = .Remove ∨ action = .Purge) := by
    cases action <;> simp
  rcases hcases with ha | ha
  · rcases hr : x.waitForLockAptGetUpdate s.provisioner s.world with ⟨_ | e, w1⟩
    · rcases hs : x.SSHCommand s.provisioner (aptCommand (aptVerb action) (aptName name)) w1
        with ⟨⟨out, err⟩, w2⟩
      rw [Package_refreshed x name action s w1 w2 out err ha hr hs]
      rcases ha with rfl | rfl <;>
        exact ⟨out, err, by simp only [newCalls, List.drop_left]; rfl⟩
    · rcases ha with rfl | rfl <;> simp [hr] at h
  · rcases hs : x.SSHCommand s.provisioner (aptCommand (aptVerb action) (aptName name)) s.world
      with ⟨⟨out, err⟩, w2⟩
    rw [Package_not_refreshed x name action s w2 out err ha hs]
    rcases ha with rfl | rfl <;>
      exact ⟨out, err, by simp only [newCalls, List.drop_left]; rfl⟩

theorem Package_remote_command_witness :
    (demo.goodHost.waitForLockAptGetUpdate (demo.start []).provisioner (demo.start []).world).1
      = none ∧
    ∃ (out : String) (err : Option error),
      (newCalls (demo.start []) (Package demo.goodHost "docker" .Install (demo.start [])).2).filter
          (fun c => c.op.isRemoteCommand)
        = [⟨.SSHCommand
            ("DEBIAN_FRONTEND=noninteractive sudo -E apt-get -o DPkg::Lock::Timeout=300 "
              ++ "install" ++ " -y  " ++ "docker-ce") out, err⟩] :=
  ⟨rfl,
   Package_remote_command demo.goodHost "docker" .Install (demo.start [])
     (Or.inr (Or.inr rfl))⟩

/-- C7, as stated, fails: on a host whose remote command channel answers the
removal of "htop" with the output "E: Unable to locate package" and the error
"exit status 100", `Package` returns the error "command failed: exit status
100", whose text does not contain the output of the command. -/
theorem Package_error_without_output :
    (⟨.SSHCommand (aptCommand "remove" "htop") "E: Unable to locate package",
        some ⟨"exit status 100"⟩⟩ : Call String Unit)
      ∈ newCalls (demo.start []) (Package demo.noHtopHost "htop" .Remove (demo.start [])).2 ∧
    (Package demo.noHtopHost "htop" .Remove (demo.start [])).1
      = some ⟨"command failed: exit status 100"⟩ ∧
    ¬ ("E: Unable to locate package".data <:+: "command failed: exit status 100".data) := by
  decide

/-- C7, as amended.  When the remote package command fails, `Package` returns an
error whose text is "command failed: " followed by the text of the error of
the command, whatever the output of the command, which is discarded; when the
remote command succeeds, `Package` returns no error. -/
theorem Package_command_failed (x : Externals α σ ε ω) (name : String)
    (action : PackageAction) (s : Run α σ ε ω) (command out : String) :
    (∀ e : error,
      ⟨.SSHCommand command out, some e⟩ ∈ newCalls s (Package x name action s).2 →
        (Package x name action s).1 = some ⟨"command failed: " ++ e.Error⟩) ∧
    (⟨.SSHCommand command out, none⟩ ∈ newCalls s (Package x name action s).2 →
      (Package x name action s).1 = none) := by
  have hcases : (action = .Install ∨ action = .Upgrade) ∨ (action = .Remove ∨ action = .Purge) := by
    cases action <;> simp
  rcases hcases with ha | ha
  · rcases hr : x.waitForLockAptGetUpdate s.provisioner s.world with ⟨_ | e, w1⟩
    · rcases hs : x.SSHCommand s.provisioner (aptCommand (aptVerb action) (aptName name)) w1
        with ⟨⟨out1, err⟩, w2⟩
      rw [Package_refreshed x name action s w1 w2 out1 err ha hr hs]
      constructor
      · intro e hmem
        simp [newCalls] at hmem
        simp [← hmem.2, commandFailed]
      · intro hmem
        simp [newCalls] at hmem
        simp [← hmem.2, commandFailed]
    · rw [Package_refresh_failed x name action s e w1 ha hr]
      simp [newCalls]
  · rcases hs : x.SSHCommand s.provisioner (aptCommand (aptVerb action) (aptName name)) s.world
      with ⟨⟨out1, err⟩, w2⟩
    rw [Package_not_refreshed x name action s w2 out1 err ha hs]
    constructor
    · intro e hmem
      simp [newCalls] at hmem
      simp [← hmem.2, commandFailed]
    · intro hmem
      simp [newCalls] at hmem
      simp [← hmem.2, commandFailed]

theorem Package_command_failed_witness :
    (⟨.SSHCommand (aptCommand "remove" "htop") "E: Unable to locate package",
        some ⟨"exit status 100"⟩⟩ : Call String Unit)
      ∈ newCalls (demo.start []) (Package demo.noHtopHost "htop" .Remove (demo.start [])).2 ∧
    (Package demo.noHtopHost "htop" .Remove (demo.start [])).1
      = some ⟨"command failed: " ++ "exit status 100"⟩ ∧
    (⟨.SSHCommand (aptCommand "remove" "curl") "", none⟩ : Call String Unit)
      ∈ newCalls (demo.start []) (Package demo.noHtopHost "curl" .Remove (demo.start [])).2 ∧
    (Package demo.noHtopHost "curl" .Remove (demo.start [])).1 = none :=
  ⟨by decide,
   (Package_command_failed demo.noHtopHost "htop" .Remove (demo.start [])
      (aptCommand "remove" "htop") "E: Unable to locate package").1
      ⟨"exit status 100"⟩ (by decide),
   by decide,
   (Package_command_failed demo.noHtopHost "curl" .Remove (demo.start [])
      (aptCommand "remove" "curl") "").2 (by decide)⟩

end dispatcher

/-! ## The orchestration sequence -/

section orchestration

variable {α σ ε ω : Type}

/-- C3. When every step succeeds, `Provision` returns no error and its call log
is exactly, in this order: the wait for cloud-init; the resolution of the
storage driver; the query of the machine name of the driver and the setting
of the hostname to it; for each base package in list order the metadata
refresh and the apt-get install command of `Package`; the installation of the
engine; the wait for the docker daemon, that is fewer probes than
`maxAttempts` that ran "sudo docker version" and got an error, then a probe
that ran it and got none; the finalisation of the auth options; the
configuration of auth; the configuration of swarm with the finalised auth
options; the enabling of the docker service; with the log messages of
`Provision` in between.  Its steps are therefore the steps of the sequence,
once each and in order. -/
theorem Provision_runs_every_step_once (x : Externals α σ ε ω)
    (swarmOptions : swarm.Options σ) (authOptions : α) (engineOptions : engine.Options ε)
    (s : Run α σ ε ω)
    (hok : ∀ c ∈ steps (newCalls s (Provision x swarmOptions authOptions engineOptions s).2),
      c.err = none) :
    (Provision x swarmOptions authOptions engineOptions s).1 = none ∧
    ∃ (sd name : String) (remoteAuthOptions : α) (outs : List String)
      (failed : List (String × error)) (out : String),
      outs.length = s.provisioner.Packages.length ∧
      failed.length < x.maxAttempts ∧
      newCalls s (Provision x swarmOptions authOptions engineOptions s).2
        = [⟨.Debug "waiting for cloud-init to complete", none⟩,
           ⟨.waitForCloudInit, none⟩,
           ⟨.decideStorageDriver x.DefaultStorageDriver engineOptions.StorageDriver sd, none⟩,
           ⟨.Debug "setting hostname", none⟩,
           ⟨.GetMachineName name, none⟩,
           ⟨.SetHostname name, none⟩,
           ⟨.Debug "installing base packages", none⟩]
          ++ (List.zipWith (packageLog x) s.provisioner.Packages outs).flatten
          ++ [⟨.installDockerGeneric engineOptions.InstallURL engineOptions.Version, none⟩,
              ⟨.Debug "waiting for docker daemon", none⟩]
          ++ (failed.map (fun p => failedProbeLog p.1 p.2)).flatten
          ++ respondingProbeLog out
          ++ [⟨.WaitFor, none⟩,
              ⟨.setRemoteAuthOptions remoteAuthOptions, none⟩,
              ⟨.Debug "configuring auth", none⟩,
              ⟨.ConfigureAuth, none⟩,
              ⟨.Debug "configuring swarm", none⟩,
              ⟨.configureSwarm { swarmOptions with Env := engineOptions.Env } remoteAuthOptions, none⟩,
              ⟨.Debug "enabling docker in systemd", none⟩,
              ⟨.Service "docker" .Enable, none⟩] ∧
      steps (newCalls s (Provision x swarmOptions authOptions engineOptions s).2)
        = ([Op.waitForCloudInit,
            Op.decideStorageDriver x.DefaultStorageDriver engineOptions.StorageDriver sd,
            Op.GetMachineName name,
            Op.SetHostname name]
          ++ s.provisioner.Packages.map (fun n => Op.Package n .Install)
          ++ [Op.installDockerGeneric engineOptions.InstallURL engineOptions.Version,
              Op.WaitFor,
              Op.setRemoteAuthOptions remoteAuthOptions,
              Op.ConfigureAuth,
              Op.configureSwarm { swarmOptions with Env := engineOptions.Env } remoteAuthOptions,
              Op.Service "docker" .Enable]).map (fun op => ⟨op, none⟩) := by
  obtain ⟨_, _, _, _, _, _, hA, _⟩ :=
    Provision_steps x swarmOptions authOptions engineOptions s
  have hr := hA.none_of_all hok
  obtain ⟨sd, name, ao1, outs, failed, out, hlen, hfl, hc⟩ :=
    Provision_success_log x swarmOptions authOptions engineOptions s hr
  have hnew := newCalls_of_append hc
  refine ⟨hr, sd, name, ao1, outs, failed, out, hlen, hfl, hnew, ?_⟩
  rw [hnew]
  simp [steps_append, steps_cons, Op.isStep, steps_packageLogs x _ _ hlen,
    steps_failedProbeLogs, respondingProbeLog]

theorem Provision_runs_every_step_once_witness :
    (∀ c ∈ steps (newCalls (demo.start ["curl"]) demo.slowDaemonRun.2), c.err = none) ∧
    newCalls (demo.start ["curl"]) demo.slowDaemonRun.2
      = [⟨.Debug "waiting for cloud-init to complete", none⟩,
         ⟨.waitForCloudInit, none⟩,
         ⟨.decideStorageDriver "overlay2" "" "overlay2", none⟩,
         ⟨.Debug "setting hostname", none⟩,
         ⟨.GetMachineName "node1", none⟩,
         ⟨.SetHostname "node1", none⟩,
         ⟨.Debug "installing base packages", none⟩,
         ⟨.waitForLockAptGetUpdate, none⟩,
         ⟨.Debugf "package: action=%s name=%s" ["install", "curl"], none⟩,
         ⟨.SSHCommand
            "DEBIAN_FRONTEND=noninteractive sudo -E apt-get -o DPkg::Lock::Timeout=300 install -y  curl"
            "", none⟩,
         ⟨.Package "curl" .Install, none⟩,
         ⟨.installDockerGeneric "https://get.docker.com" "24.0", none⟩,
         ⟨.Debug "waiting for docker daemon", none⟩,
         ⟨.Debug "checking docker daemon", none⟩,
         ⟨.SSHCommand "sudo docker version" "Cannot connect to the Docker daemon",
            some ⟨"exit status 1"⟩⟩,
         ⟨.Warnf "Error getting SSH command to check if the daemon is up: %s" ["exit status 1"],
            none⟩,
         ⟨.Debugf "\x27sudo docker version\x27 output:\n%s" ["Cannot connect to the Docker daemon"],
            none⟩,
         ⟨.dockerDaemonResponding false, none⟩,
         ⟨.Debug "checking docker daemon", none⟩,
         ⟨.SSHCommand "sudo docker version" "Cannot connect to the Docker daemon",
            some ⟨"exit status 1"⟩⟩,
         ⟨.Warnf "Error getting SSH command to check if the daemon is up: %s" ["exit status 1"],
            none⟩,
         ⟨.Debugf "\x27sudo docker version\x27 output:\n%s" ["Cannot connect to the Docker daemon"],
            none⟩,
         ⟨.dockerDaemonResponding false, none⟩,
         ⟨.Debug "checking docker daemon", none⟩,
         ⟨.SSHCommand "sudo docker version" "", none⟩,
         ⟨.dockerDaemonResponding true, none⟩,
         ⟨.WaitFor, none⟩,
         ⟨.setRemoteAuthOptions "auth@node1", none⟩,
         ⟨.Debug "configuring auth", none⟩,
         ⟨.ConfigureAuth, none⟩,
         ⟨.Debug "configuring swarm", none⟩,
         ⟨.configureSwarm ⟨["HTTP_PROXY=http://proxy:3128"], ()⟩ "auth@node1", none⟩,
         ⟨.Debug "enabling docker in systemd", none⟩,
         ⟨.Service "docker" .Enable, none⟩] ∧
    demo.slowDaemonRun.1 = none ∧
    ∃ (sd name : String) (remoteAuthOptions : String) (outs : List String)
      (failed : List (String × error)) (out : String),
      outs.length = ["curl"].length ∧
      failed.length < demo.slowDaemonHost.maxAttempts ∧
      newCalls (demo.start ["curl"]) demo.slowDaemonRun.2
        = [⟨.Debug "waiting for cloud-init to complete", none⟩,
           ⟨.waitForCloudInit, none⟩,
           ⟨.decideStorageDriver demo.slowDaemonHost.DefaultStorageDriver demo.engineOptions.StorageDriver sd, none⟩,
           ⟨.Debug "setting hostname", none⟩,
           ⟨.GetMachineName name, none⟩,
           ⟨.SetHostname name, none⟩,
           ⟨.Debug "installing base packages", none⟩]
          ++ (List.zipWith (packageLog demo.slowDaemonHost) ["curl"] outs).flatten
          ++ [⟨.installDockerGeneric demo.engineOptions.InstallURL demo.engineOptions.Version, none⟩,
              ⟨.Debug "waiting for docker daemon", none⟩]
          ++ (failed.map (fun p => failedProbeLog p.1 p.2)).flatten
          ++ respondingProbeLog out
          ++ [⟨.WaitFor, none⟩,
              ⟨.setRemoteAuthOptions remoteAuthOptions, none⟩,
              ⟨.Debug "configuring auth", none⟩,
              ⟨.ConfigureAuth, none⟩,
              ⟨.Debug "configuring swarm", none⟩,
              ⟨.configureSwarm { demo.swarmOptions with Env := demo.engineOptions.Env } remoteAuthOptions, none⟩,
              ⟨.Debug "enabling docker in systemd", none⟩,
              ⟨.Service "docker" .Enable, none⟩] ∧
      steps (newCalls (demo.start ["curl"]) demo.slowDaemonRun.2)
        = ([Op.waitForCloudInit,
            Op.decideStorageDriver demo.slowDaemonHost.DefaultStorageDriver demo.engineOptions.StorageDriver sd,
            Op.GetMachineName name,
            Op.SetHostname name]
          ++ ["curl"].map (fun n => Op.Package n .Install)
          ++ [Op.installDockerGeneric demo.engineOptions.InstallURL demo.engineOptions.Version,
              Op.WaitFor,
              Op.setRemoteAuthOptions remoteAuthOptions,
              Op.ConfigureAuth,
              Op.configureSwarm { demo.swarmOptions with Env := demo.engineOptions.Env } remoteAuthOptions,
              Op.Service "docker" .Enable]).map (fun op => ⟨op, none⟩) :=
  ⟨by decide,
   by decide,
   Provision_runs_every_step_once demo.slowDaemonHost demo.swarmOptions "auth"
     demo.engineOptions (demo.start ["curl"]) (by decide)⟩

/-- C4. `Provision` aborts at the first failing step: a step that returns an
error is the last step of the run and its error is the result of `Provision`;
the steps of a run are an initial part of the steps of a run in which nothing
fails, in the same order; in particular, when a call of `Package` returns an
error, `installDockerGeneric` is not called. -/
theorem Provision_aborts_at_first_failure (x : Externals α σ ε ω)
    (swarmOptions : swarm.Options σ) (authOptions : α) (engineOptions : engine.Options ε)
    (s : Run α σ ε ω) :
    (∀ (pre post : List (Call α σ)) (c : Call α σ) (e : error),
      steps (newCalls s (Provision x swarmOptions authOptions engineOptions s).2)
          = pre ++ c :: post →
        c.err = some e →
        post = [] ∧ (Provision x swarmOptions authOptions engineOptions s).1 = some e) ∧
    (∃ (sd name : String) (remoteAuthOptions : α) (later : List (Op α σ)),
      script x swarmOptions engineOptions s.provisioner.Packages sd name remoteAuthOptions
        = (steps (newCalls s (Provision x swarmOptions authOptions engineOptions s).2)).map
            (fun c => c.op) ++ later) ∧
    (∀ (name : String) (action : PackageAction) (e : error),
      ⟨.Package name action, some e⟩
          ∈ newCalls s (Provision x swarmOptions authOptions engineOptions s).2 →
        ∀ (url version : String) (err : Option error),
          ⟨.installDockerGeneric url version, err⟩
            ∉ newCalls s (Provision x swarmOptions authOptions engineOptions s).2) := by
  obtain ⟨_, _, _, sd, name, ao1, hA, _⟩ :=
    Provision_steps x swarmOptions authOptions engineOptions s
  refine ⟨fun pre post c e hst hc => hA.last_of_err hst hc, ?_, ?_⟩
  · obtain ⟨later, hl⟩ := hA.ops_of_steps
    exact ⟨sd, name, ao1, later, hl⟩
  · intro pname action e hmem url version err hmem2
    have hs := mem_steps.mpr ⟨hmem, rfl⟩
    have hs2 := mem_steps.mpr ⟨hmem2, rfl⟩
    obtain ⟨sd, name, ao1, sA, sP, sB, hst, hcase⟩ :=
      Provision_phases x swarmOptions authOptions engineOptions s
    rw [hst] at hs hs2
    simp only [List.mem_append] at hs hs2
    rcases hcase with ⟨e1, hr, hA, rfl, rfl⟩ | ⟨hA, e1, hr, hP, rfl⟩ | ⟨hA, hP, hB⟩
    · rcases hs with hs | hs | hs
      · simpa [scriptHead] using hA.op_mem hs
      · simp at hs
      · simp at hs
    · rcases hs2 with hs2 | hs2 | hs2
      · simpa [scriptHead] using hA.op_mem hs2
      · simpa using hP.op_mem hs2
      · simp at hs2
    · rcases hs with hs | hs | hs
      · simpa [scriptHead] using hA.op_mem hs
      · simpa using hP.err_none rfl hs
      · simpa [scriptTail] using hB.op_mem hs

theorem Provision_aborts_at_first_failure_witness :
    steps (newCalls (demo.start ["curl", "htop", "jq"]) demo.noHtopRun.2)
      = [⟨.waitForCloudInit, none⟩, ⟨.decideStorageDriver "overlay2" "" "overlay2", none⟩,
         ⟨.GetMachineName "node1", none⟩, ⟨.SetHostname "node1", none⟩,
         ⟨.Package "curl" .Install, none⟩]
        ++ ⟨.Package "htop" .Install, some ⟨"command failed: exit status 100"⟩⟩ :: [] ∧
    demo.noHtopRun.1 = some ⟨"command failed: exit status 100"⟩ ∧
    ∀ (url version : String) (err : Option error),
      ⟨.installDockerGeneric url version, err⟩
        ∉ newCalls (demo.start ["curl", "htop", "jq"]) demo.noHtopRun.2 :=
  ⟨by decide,
   ((Provision_aborts_at_first_failure demo.noHtopHost demo.swarmOptions "auth"
      demo.engineOptions (demo.start ["curl", "htop", "jq"])).1
      [⟨.waitForCloudInit, none⟩, ⟨.decideStorageDriver "overlay2" "" "overlay2", none⟩,
       ⟨.GetMachineName "node1", none⟩, ⟨.SetHostname "node1", none⟩,
       ⟨.Package "curl" .Install, none⟩]
      [] ⟨.Package "htop" .Install, some ⟨"command failed: exit status 100"⟩⟩
      ⟨"command failed: exit status 100"⟩ (by decide) rfl).2,
   (Provision_aborts_at_first_failure demo.noHtopHost demo.swarmOptions "auth"
      demo.engineOptions (demo.start ["curl", "htop", "jq"])).2.2
      "htop" .Install ⟨"command failed: exit status 100"⟩ (by decide)⟩

/-- C5. In a run of `Provision` the calls of `Package` are calls
`Package(name, Install)` for the first names of the list of base packages, in
list order and one per name.  When the call for the name at index `i` returns
an error, the calls made are exactly those for the names at the indices `0..i`
and `Provision` returns that error.  When the hostname has been set and no call
of `Package` fails, there is one call for each name of the list. -/
theorem Provision_base_packages (x : Externals α σ ε ω)
    (swarmOptions : swarm.Options σ) (authOptions : α) (engineOptions : engine.Options ε)
    (s : Run α σ ε ω) :
    (∃ k, k ≤ s.provisioner.Packages.length ∧
      ((newCalls s (Provision x swarmOptions authOptions engineOptions s).2).filter
          (fun c => c.op.isPackage)).map (fun c => c.op)
        = (s.provisioner.Packages.take k).map (fun n => Op.Package n .Install)) ∧
    (∀ (i : Nat) (c : Call α σ) (e : error),
      ((newCalls s (Provision x swarmOptions authOptions engineOptions s).2).filter
          (fun c => c.op.isPackage))[i]? = some c →
        c.err = some e →
        i < s.provisioner.Packages.length ∧
        ((newCalls s (Provision x swarmOptions authOptions engineOptions s).2).filter
            (fun c => c.op.isPackage)).map (fun c => c.op)
          = (s.provisioner.Packages.take (i + 1)).map (fun n => Op.Package n .Install) ∧
        (Provision x swarmOptions authOptions engineOptions s).1 = some e) ∧
    (∀ name : String,
      ⟨.SetHostname name, none⟩
          ∈ newCalls s (Provision x swarmOptions authOptions engineOptions s).2 →
        (∀ c ∈ (newCalls s (Provision x swarmOptions authOptions engineOptions s).2).filter
            (fun c => c.op.isPackage), c.err = none) →
        (newCalls s (Provision x swarmOptions authOptions engineOptions s).2).filter
            (fun c => c.op.isPackage)
          = s.provisioner.Packages.map (fun n => ⟨Op.Package n .Install, none⟩)) := by
  obtain ⟨sP, hpk, hcase⟩ :=
    Provision_package_calls x swarmOptions authOptions engineOptions s
  rw [hpk]
  have hinit : ∀ {r : Option error},
      Aborting (s.provisioner.Packages.map (fun n => Op.Package n .Install)) sP r →
      sP.length ≤ s.provisioner.Packages.length ∧
      sP.map (fun c => c.op)
        = (s.provisioner.Packages.take sP.length).map (fun n => Op.Package n .Install) := by
    intro r hP
    obtain ⟨later, hl⟩ := hP.ops_of_steps
    have hlen := congrArg List.length hl
    simp only [List.length_map, List.length_append] at hlen
    refine ⟨by omega, ?_⟩
    rw [List.map_take, hl, List.take_left' (by simp)]
  refine ⟨?_, ?_, ?_⟩
  · rcases hcase with ⟨rfl, _⟩ | ⟨e1, _, hP⟩ | hP
    · exact ⟨0, Nat.zero_le _, rfl⟩
    · exact ⟨sP.length, (hinit hP).1, (hinit hP).2⟩
    · exact ⟨sP.length, (hinit hP).1, (hinit hP).2⟩
  · intro i c e hi hc
    rcases hcase with ⟨rfl, _⟩ | ⟨e1, hr, hP⟩ | hP
    · simp at hi
    · obtain ⟨hlt, hget⟩ := List.getElem?_eq_some.mp hi
      have hsplit : sP = sP.take i ++ c :: sP.drop (i + 1) := by
        rw [← hget, ← List.drop_eq_getElem_cons hlt, List.take_append_drop]
      obtain ⟨hpost, hre⟩ := hP.last_of_err hsplit hc
      have hlen : sP.length = i + 1 := by
        have h1 := congrArg List.length hsplit
        rw [hpost] at h1
        simp only [List.length_append, List.length_take, List.length_cons,
          List.length_nil] at h1
        omega
      have h2 := hinit hP
      rw [hlen] at h2
      exact ⟨by omega, h2.2, by rw [hr, hre]⟩
    · have := hP.err_none rfl (List.getElem?_mem hi)
      rw [hc] at this
      cases this
  · intro name hname hall
    rcases hcase with ⟨_, hno⟩ | ⟨e1, _, hP⟩ | hP
    · exact absurd hname (hno name)
    · have := hP.none_of_all hall
      cases this
    · rw [hP.eq_of_none rfl, List.map_map]
      rfl

theorem Provision_base_packages_witness :
    ((newCalls (demo.start ["curl", "htop", "jq"]) demo.noHtopRun.2).filter
        (fun c => c.op.isPackage))[1]?
      = some ⟨.Package "htop" .Install, some ⟨"command failed: exit status 100"⟩⟩ ∧
    (1 < ["curl", "htop", "jq"].length ∧
      ((newCalls (demo.start ["curl", "htop", "jq"]) demo.noHtopRun.2).filter
          (fun c => c.op.isPackage)).map (fun c => c.op)
        = (["curl", "htop", "jq"].take (1 + 1)).map (fun n => Op.Package n .Install) ∧
      demo.noHtopRun.1 = some ⟨"command failed: exit status 100"⟩) ∧
    (newCalls (demo.start ["curl"]) demo.goodRun.2).filter (fun c => c.op.isPackage)
      = ["curl"].map (fun n => ⟨Op.Package n .Install, none⟩) :=
  ⟨by decide,
   (Provision_base_packages demo.noHtopHost demo.swarmOptions "auth" demo.engineOptions
      (demo.start ["curl", "htop", "jq"])).2.1 1
      ⟨.Package "htop" .Install, some ⟨"command failed: exit status 100"⟩⟩
      ⟨"command failed: exit status 100"⟩ (by decide) rfl,
   (Provision_base_packages demo.goodHost demo.swarmOptions "auth" demo.engineOptions
      (demo.start ["curl"])).2.2 "node1" (by decide) (by decide)⟩

/-- C8. When `decideStorageDriver` returns an error, `Provision` returns that
error and has made no call but the log message before the wait for
cloud-init, the wait for cloud-init, which succeeded, and the failed
resolution of the storage driver: the hostname is not set, no package is
installed, the engine is not installed, auth and swarm are not configured and
the service is not enabled. -/
theorem Provision_storage_driver_rejected (x : Externals α σ ε ω)
    (swarmOptions : swarm.Options σ) (authOptions : α) (engineOptions : engine.Options ε)
    (s : Run α σ ε ω) (d drv res : String) (e : error)
    (h : ⟨.decideStorageDriver d drv res, some e⟩
      ∈ newCalls s (Provision x swarmOptions authOptions engineOptions s).2) :
    (Provision x swarmOptions authOptions engineOptions s).1 = some e ∧
    newCalls s (Provision x swarmOptions authOptions engineOptions s).2
      = [⟨.Debug "waiting for cloud-init to complete", none⟩,
         ⟨.waitForCloudInit, none⟩,
         ⟨.decideStorageDriver d drv res, some e⟩] ∧
    steps (newCalls s (Provision x swarmOptions authOptions engineOptions s).2)
      = [⟨.waitForCloudInit, none⟩, ⟨.decideStorageDriver d drv res, some e⟩] := by
  have key : (Provision x swarmOptions authOptions engineOptions s).1 = some e ∧
      steps (newCalls s (Provision x swarmOptions authOptions engineOptions s).2)
        = [⟨.waitForCloudInit, none⟩, ⟨.decideStorageDriver d drv res, some e⟩] := by
    have hs := mem_steps.mpr ⟨h, rfl⟩
    obtain ⟨sd, name, ao1, sA, sP, sB, hst, hcase⟩ :=
      Provision_phases x swarmOptions authOptions engineOptions s
    rw [hst] at hs ⊢
    simp only [List.mem_append] at hs
    rcases hcase with ⟨e1, hr, hA, rfl, rfl⟩ | ⟨hA, e1, hr, hP, rfl⟩ | ⟨hA, hP, hB⟩
    · rcases hs with hs | hs | hs
      · rcases hA.head_cases with rfl | rfl | rfl | rfl <;>
          simp [scriptHead] at hs ⊢
        obtain ⟨⟨rfl, rfl, rfl⟩, rfl⟩ := hs
        simp [hr]
      · simp at hs
      · simp at hs
    · rcases hs with hs | hs | hs
      · simpa using hA.err_none rfl hs
      · simpa using hP.op_mem hs
      · simp at hs
    · rcases hs with hs | hs | hs
      · simpa using hA.err_none rfl hs
      · simpa using hP.op_mem hs
      · simpa [scriptTail] using hB.op_mem hs
  exact ⟨key.1,
    (Provision_steps x swarmOptions authOptions engineOptions s).2.2.1 _ key.2, key.2⟩

theorem Provision_storage_driver_rejected_witness :
    (⟨.decideStorageDriver "overlay2" "" "overlay2", some ⟨"unsupported storage driver"⟩⟩ :
        Call String Unit)
      ∈ newCalls (demo.start ["curl"]) demo.noDriverRun.2 ∧
    demo.noDriverRun.1 = some ⟨"unsupported storage driver"⟩ ∧
    newCalls (demo.start ["curl"]) demo.noDriverRun.2
      = [⟨.Debug "waiting for cloud-init to complete", none⟩,
         ⟨.waitForCloudInit, none⟩,
         ⟨.decideStorageDriver "overlay2" "" "overlay2", some ⟨"unsupported storage driver"⟩⟩] ∧
    steps (newCalls (demo.start ["curl"]) demo.noDriverRun.2)
      = [⟨.waitForCloudInit, none⟩,
         ⟨.decideStorageDriver "overlay2" "" "overlay2", some ⟨"unsupported storage driver"⟩⟩] :=
  ⟨by decide,
   Provision_storage_driver_rejected demo.noDriverHost demo.swarmOptions "auth"
     demo.engineOptions (demo.start ["curl"]) "overlay2" "" "overlay2"
     ⟨"unsupported storage driver"⟩ (by decide)⟩

/-- C9. In `Provision` the swarm options handed to `configureSwarm` have the `Env`
of the engine options and otherwise the fields of the swarm options of the
caller, whereas the `SwarmOptions` stored on the provisioner are the swarm
options of the caller, `Env` included; a run that succeeds has made such a
call of `configureSwarm`. -/
theorem Provision_swarm_env (x : Externals α σ ε ω)
    (swarmOptions : swarm.Options σ) (authOptions : α) (engineOptions : engine.Options ε)
    (s : Run α σ ε ω) :
    (Provision x swarmOptions authOptions engineOptions s).2.provisioner.SwarmOptions
      = swarmOptions ∧
    (∀ (so : swarm.Options σ) (ao : α) (err : Option error),
      ⟨.configureSwarm so ao, err⟩
          ∈ newCalls s (Provision x swarmOptions authOptions engineOptions s).2 →
        so.Env = engineOptions.Env ∧ so.rest = swarmOptions.rest) ∧
    ((Provision x swarmOptions authOptions engineOptions s).1 = none →
      ∃ ao : α, ⟨.configureSwarm { swarmOptions with Env := engineOptions.Env } ao, none⟩
        ∈ newCalls s (Provision x swarmOptions authOptions engineOptions s).2) := by
  obtain ⟨hsw, _, _, sd, name, ao1, hA, _⟩ :=
    Provision_steps x swarmOptions authOptions engineOptions s
  refine ⟨hsw, ?_, ?_⟩
  · intro so ao err h
    have hop := hA.op_mem (mem_steps.mpr ⟨h, rfl⟩)
    simp [script] at hop
    obtain ⟨rfl, _⟩ := hop
    exact ⟨rfl, rfl⟩
  · intro hr
    refine ⟨ao1, (mem_steps.mp ?_).1⟩
    rw [hA.eq_of_none hr]
    simp [script]

theorem Provision_swarm_env_witness :
    (⟨.configureSwarm ⟨["HTTP_PROXY=http://proxy:3128"], ()⟩ "auth@node1", none⟩ :
        Call String Unit)
      ∈ newCalls (demo.start ["curl"]) demo.goodRun.2 ∧
    ((⟨["HTTP_PROXY=http://proxy:3128"], ()⟩ : swarm.Options Unit).Env = demo.engineOptions.Env ∧
      (⟨["HTTP_PROXY=http://proxy:3128"], ()⟩ : swarm.Options Unit).rest
        = demo.swarmOptions.rest) ∧
    demo.goodRun.2.provisioner.SwarmOptions.Env = ["SWARM_ENV=1"] ∧
    demo.goodRun.1 = none ∧
    ∃ ao : String,
      ⟨.configureSwarm { demo.swarmOptions with Env := demo.engineOptions.Env } ao, none⟩
        ∈ newCalls (demo.start ["curl"]) demo.goodRun.2 :=
  ⟨by decide,
   (Provision_swarm_env demo.goodHost demo.swarmOptions "auth" demo.engineOptions
      (demo.start ["curl"])).2.1 ⟨["HTTP_PROXY=http://proxy:3128"], ()⟩ "auth@node1" none
      (by decide),
   by decide,
   by decide,
   (Provision_swarm_env demo.goodHost demo.swarmOptions "auth" demo.engineOptions
      (demo.start ["curl"])).2.2 (by decide)⟩

end orchestration

end provision

/-! ## The debug flag of the logger -/

namespace log

namespace FmtMachineLogger

/-- C10. `Debug` and `Debugf` always hand the message to the history; they write
the formatted line to the log file and to the error writer when the debug flag
is set and write nothing when it is not; they never write to the out writer and
leave the flag as it is.  `Error` writes the line to the log file and to the
error writer, `Info` and `Warn` to the log file and to the out writer, whatever
the flag.  `SetDebug` sets the flag and nothing else. -/
theorem Debug_writes_only_with_debug_flag {A : Type} (f : Fmt A) (ml : FmtMachineLogger A)
    (fmtString : String) (args : List A) (debug : Bool) :
    ((Debug f ml args).history = ml.history ++ [.Record args] ∧
      (Debug f ml args).errWriter
        = (if ml.debug = true then ml.errWriter ++ [f.Sprintln args] else ml.errWriter) ∧
      (Debug f ml args).logFile
        = (if ml.debug = true then ml.logFile ++ [f.Sprintln args] else ml.logFile) ∧
      (Debug f ml args).outWriter = ml.outWriter ∧
      (Debug f ml args).debug = ml.debug) ∧
    ((Debugf f ml fmtString args).history = ml.history ++ [.Recordf fmtString args] ∧
      (Debugf f ml fmtString args).errWriter
        = (if ml.debug = true then ml.errWriter ++ [f.Sprintf (fmtString ++ "\n") args]
           else ml.errWriter) ∧
      (Debugf f ml fmtString args).logFile
        = (if ml.debug = true then ml.logFile ++ [f.Sprintf (fmtString ++ "\n") args]
           else ml.logFile) ∧
      (Debugf f ml fmtString args).outWriter = ml.outWriter ∧
      (Debugf f ml fmtString args).debug = ml.debug) ∧
    Error f ml args =
      { ml with
        history := ml.history ++ [.Record args]
        logFile := ml.logFile ++ [f.Sprintln args]
        errWriter := ml.errWriter ++ [f.Sprintln args] } ∧
    Info f ml args =
      { ml with
        history := ml.history ++ [.Record args]
        logFile := ml.logFile ++ [f.Sprintln args]
        outWriter := ml.outWriter ++ [f.Sprintln args] } ∧
    Warn f ml args =
      { ml with
        history := ml.history ++ [.Record args]
        logFile := ml.logFile ++ [f.Sprintln args]
        outWriter := ml.outWriter ++ [f.Sprintln args] } ∧
    ml.SetDebug debug = { ml with debug := debug } := by
  refine ⟨?_, ?_, rfl, rfl, rfl, rfl⟩
  · cases hd : ml.debug <;> simp [Debug, history_Record, writeErr, hd]
  · cases hd : ml.debug <;> simp [Debugf, history_Recordf, writeErr, hd]

end FmtMachineLogger

end log
